import Mathlib

/-!
# moonlight-common-c: connection state machine and socket primitives

A shallow embedding of `limelight-common/Connection.c` and of the address, send,
connect, resolve and bind functions of `src/PlatformSockets.c`, followed by
theorems about the embedded functions.

Conventions of the embedding

* C `int` and `long` values are `Int`; no arithmetic in the embedded code can
  overflow (the stage counter moves by one inside `0..11`, byte counts stay
  below the caller's `int size`).
* The file-scope variables of `Connection.c` (`stage`, `alreadyTerminated`)
  are fields of `Connection.Session`; every function takes the session and
  returns the new one.
* Calls that leave the file (stream subsystems, platform layer, resolver,
  listener callbacks) are recorded in `Session.trace` in program order.
  What an external entry point returns, and which termination reports it
  raises through `ListenerCallbacks.connectionTerminated` while it runs, is
  given by an environment `Connection.Env`.
* The socket functions of `PlatformSockets.c` take the answers of the operating
  system and of the resolver as an environment (`ConnectEnv`, `ResolveEnv`,
  `BindEnv`, the result sequence of `send`), return `INVALID_SOCKET` as `none`
  and list the calls they make.
* A call is one step: listener callbacks and external entry points return to
  their caller without re-entering `LiStartConnection` or `LiStopConnection`,
  and the only thing an external entry point does to the session is to call
  the installed termination wrapper.
* `Limelog` output is not modelled.
* The loop of `sendMtuSafe` is defined by well-founded recursion on the number
  of bytes left, the `for` loop of `isInSubnetV6` by recursion on the number
  of iterations left; neither needs fuel.
-/

namespace Connection

/-- Modelled from the spec: `STAGE_NONE` of `Limelight.h`, first of the twelve ordered
stages (index 0 of `stageNames`). -/
abbrev STAGE_NONE : Int := 0
/-- Modelled from the spec: `STAGE_PLATFORM_INIT` of `Limelight.h` (index 1 of `stageNames`). -/
abbrev STAGE_PLATFORM_INIT : Int := 1
/-- Modelled from the spec: `STAGE_NAME_RESOLUTION` of `Limelight.h` (index 2 of `stageNames`). -/
abbrev STAGE_NAME_RESOLUTION : Int := 2
/-- Modelled from the spec: `STAGE_RTSP_HANDSHAKE` of `Limelight.h` (index 3 of `stageNames`). -/
abbrev STAGE_RTSP_HANDSHAKE : Int := 3
/-- Modelled from the spec: `STAGE_CONTROL_STREAM_INIT` of `Limelight.h` (index 4 of `stageNames`). -/
abbrev STAGE_CONTROL_STREAM_INIT : Int := 4
/-- Modelled from the spec: `STAGE_VIDEO_STREAM_INIT` of `Limelight.h` (index 5 of `stageNames`). -/
abbrev STAGE_VIDEO_STREAM_INIT : Int := 5
/-- Modelled from the spec: `STAGE_AUDIO_STREAM_INIT` of `Limelight.h` (index 6 of `stageNames`). -/
abbrev STAGE_AUDIO_STREAM_INIT : Int := 6
/-- Modelled from the spec: `STAGE_INPUT_STREAM_INIT` of `Limelight.h` (index 7 of `stageNames`). -/
abbrev STAGE_INPUT_STREAM_INIT : Int := 7
/-- Modelled from the spec: `STAGE_CONTROL_STREAM_START` of `Limelight.h` (index 8 of `stageNames`). -/
abbrev STAGE_CONTROL_STREAM_START : Int := 8
/-- Modelled from the spec: `STAGE_VIDEO_STREAM_START` of `Limelight.h` (index 9 of `stageNames`). -/
abbrev STAGE_VIDEO_STREAM_START : Int := 9
/-- Modelled from the spec: `STAGE_AUDIO_STREAM_START` of `Limelight.h` (index 10 of `stageNames`). -/
abbrev STAGE_AUDIO_STREAM_START : Int := 10
/-- Modelled from the spec: `STAGE_INPUT_STREAM_START` of `Limelight.h`, the final stage
(index 11 of `stageNames`). -/
abbrev STAGE_INPUT_STREAM_START : Int := 11

/-- The external entry points `Connection.c` calls (section 6 of the specification),
plus the resolver call made by the file-local `resolveHostName`. -/
inductive Action where
  | initializePlatform
  | getaddrinfo
  | performRtspHandshake
  | initializeControlStream
  | initializeVideoStream
  | initializeAudioStream
  | initializeInputStream
  | startControlStream
  | startVideoStream
  | startAudioStream
  | startInputStream
  | stopInputStream
  | stopAudioStream
  | stopVideoStream
  | stopControlStream
  | destroyInputStream
  | destroyAudioStream
  | destroyVideoStream
  | destroyControlStream
  | terminateRtspHandshake
  | cleanupPlatform
  deriving DecidableEq, Repr

/-- What leaves `Connection.c`, in program order: a call of an external entry point, a
listener notification, a delivery to the caller's original termination callback
(`originalTerminationCallback(errorCode)`), or an `LC_ASSERT` whose condition is false. -/
inductive Event where
  | call (a : Action)
  | stageStarting (stage : Int)
  | stageFailed (stage : Int) (errorCode : Int)
  | stageComplete (stage : Int)
  | connectionStarted
  | connectionTerminated (errorCode : Int)
  | assertFailed
  deriving DecidableEq, Repr

/-- Behaviour of the external collaborators during one session. -/
structure Env where
  /-- Return value of an entry point that returns `int` (0 is success). -/
  result : Action → Int
  /-- Whether a successful `getaddrinfo` hands back `res == NULL`. -/
  resNull : Bool
  /-- Error codes the entry point passes to `ListenerCallbacks.connectionTerminated`
  (the installed wrapper) while it runs, in order. -/
  raised : Action → List Int

/-- The file-scope state of `Connection.c` together with the observation trace. -/
structure Session where
  stage : Int
  alreadyTerminated : Int
  trace : List Event
  deriving DecidableEq, Repr

/-- Append one observation to the trace. -/
def emit (e : Event) (st : Session) : Session :=
  { st with trace := st.trace ++ [e] }

/-- Macro `LC_ASSERT(x)`: a false condition is recorded, execution continues as in a release
build. -/
def LC_ASSERT (x : Bool) (st : Session) : Session :=
  if x then st else emit Event.assertFailed st

/-- Function `ClInternalConnectionTerminated`, lines 111-120: the wrapper installed as
`ListenerCallbacks.connectionTerminated`. -/
def ClInternalConnectionTerminated (errorCode : Int) (st : Session) : Session :=
  if st.alreadyTerminated ≠ 0 then
    st
  else
    emit (Event.connectionTerminated errorCode) { st with alreadyTerminated := 1 }

/-- Run an external entry point: the call is recorded, then every termination report the
entry point raises goes through the installed wrapper. -/
def callExternal (env : Env) (a : Action) (st : Session) : Session :=
  (env.raised a).foldl (fun s c => ClInternalConnectionTerminated c s) (emit (Event.call a) st)

/-- One `if (stage == STAGE_x) { teardown(); stage--; }` block of `LiStopConnection`;
`none` is the name-resolution block, which only decrements. -/
def stopStep (env : Env) (s : Int) (teardown : Option Action) (st : Session) : Session :=
  if st.stage = s then
    let st := match teardown with
      | some a => callExternal env a st
      | none => st
    { st with stage := st.stage - 1 }
  else
    st

/-- Function `LiStopConnection`, lines 40-109. -/
def LiStopConnection (env : Env) (st : Session) : Session :=
  let st := { st with alreadyTerminated := 1 }
  let st := stopStep env STAGE_INPUT_STREAM_START (some Action.stopInputStream) st
  let st := stopStep env STAGE_AUDIO_STREAM_START (some Action.stopAudioStream) st
  let st := stopStep env STAGE_VIDEO_STREAM_START (some Action.stopVideoStream) st
  let st := stopStep env STAGE_CONTROL_STREAM_START (some Action.stopControlStream) st
  let st := stopStep env STAGE_INPUT_STREAM_INIT (some Action.destroyInputStream) st
  let st := stopStep env STAGE_AUDIO_STREAM_INIT (some Action.destroyAudioStream) st
  let st := stopStep env STAGE_VIDEO_STREAM_INIT (some Action.destroyVideoStream) st
  let st := stopStep env STAGE_CONTROL_STREAM_INIT (some Action.destroyControlStream) st
  let st := stopStep env STAGE_RTSP_HANDSHAKE (some Action.terminateRtspHandshake) st
  let st := stopStep env STAGE_NAME_RESOLUTION none st
  let st := stopStep env STAGE_PLATFORM_INIT (some Action.cleanupPlatform) st
  LC_ASSERT (st.stage == STAGE_NONE) st

/-- The file-local `resolveHostName` of `Connection.c`, lines 127-152: the return value and
the resolver call (the copy into `RemoteAddr` is not observed by any theorem below). -/
def resolveHostName (env : Env) (st : Session) : Int × Session :=
  let st := callExternal env Action.getaddrinfo st
  let err := env.result Action.getaddrinfo
  if err ≠ 0 then
    (err, st)
  else if env.resNull then
    (-1, st)
  else
    (0, st)

/-- The success tail of every stage block of `LiStartConnection`:
`stage++; LC_ASSERT(stage == STAGE_x); ListenerCallbacks.stageComplete(STAGE_x);`. -/
def stageDone (s : Int) (st : Session) : Session :=
  let st := { st with stage := st.stage + 1 }
  let st := LC_ASSERT (st.stage == s) st
  emit (Event.stageComplete s) st

/-- The failure tail of a stage block of `LiStartConnection`:
`ListenerCallbacks.stageFailed(STAGE_x, err); goto Cleanup;`, where the label `Cleanup:` is
followed by `return err;` only. -/
def stageAbort (s : Int) (err : Int) (st : Session) : Int × Session :=
  (err, emit (Event.stageFailed s err) st)

/-- Function `LiStartConnection`, lines 155-310. The assignments that copy the caller's
configuration and callback tables are not observed by any theorem below; of the preamble
only `alreadyTerminated = 0` is kept. -/
def LiStartConnection (env : Env) (st : Session) : Int × Session :=
  let st : Session := { st with alreadyTerminated := 0 }
  -- platform initialization
  let st : Session := emit (Event.stageStarting STAGE_PLATFORM_INIT) st
  let st : Session := callExternal env Action.initializePlatform st
  let err : Int := env.result Action.initializePlatform
  if err ≠ 0 then stageAbort STAGE_PLATFORM_INIT err st else
  let st : Session := stageDone STAGE_PLATFORM_INIT st
  -- name resolution
  let st : Session := emit (Event.stageStarting STAGE_NAME_RESOLUTION) st
  let r : Int × Session := resolveHostName env st
  let err : Int := r.1
  let st : Session := r.2
  if err ≠ 0 then stageAbort STAGE_NAME_RESOLUTION err st else
  let st : Session := stageDone STAGE_NAME_RESOLUTION st
  -- RTSP handshake
  let st : Session := emit (Event.stageStarting STAGE_RTSP_HANDSHAKE) st
  let st : Session := callExternal env Action.performRtspHandshake st
  let err : Int := env.result Action.performRtspHandshake
  if err ≠ 0 then stageAbort STAGE_RTSP_HANDSHAKE err st else
  let st : Session := stageDone STAGE_RTSP_HANDSHAKE st
  -- control stream initialization
  let st : Session := emit (Event.stageStarting STAGE_CONTROL_STREAM_INIT) st
  let st : Session := callExternal env Action.initializeControlStream st
  let err : Int := env.result Action.initializeControlStream
  if err ≠ 0 then stageAbort STAGE_CONTROL_STREAM_INIT err st else
  let st : Session := stageDone STAGE_CONTROL_STREAM_INIT st
  -- video stream initialization (returns void)
  let st : Session := emit (Event.stageStarting STAGE_VIDEO_STREAM_INIT) st
  let st : Session := callExternal env Action.initializeVideoStream st
  let st : Session := stageDone STAGE_VIDEO_STREAM_INIT st
  -- audio stream initialization (returns void)
  let st : Session := emit (Event.stageStarting STAGE_AUDIO_STREAM_INIT) st
  let st : Session := callExternal env Action.initializeAudioStream st
  let st : Session := stageDone STAGE_AUDIO_STREAM_INIT st
  -- input stream initialization (returns void)
  let st : Session := emit (Event.stageStarting STAGE_INPUT_STREAM_INIT) st
  let st : Session := callExternal env Action.initializeInputStream st
  let st : Session := stageDone STAGE_INPUT_STREAM_INIT st
  -- control stream establishment
  let st : Session := emit (Event.stageStarting STAGE_CONTROL_STREAM_START) st
  let st : Session := callExternal env Action.startControlStream st
  let err : Int := env.result Action.startControlStream
  if err ≠ 0 then stageAbort STAGE_CONTROL_STREAM_START err st else
  let st : Session := stageDone STAGE_CONTROL_STREAM_START st
  -- video stream establishment
  let st : Session := emit (Event.stageStarting STAGE_VIDEO_STREAM_START) st
  let st : Session := callExternal env Action.startVideoStream st
  let err : Int := env.result Action.startVideoStream
  if err ≠ 0 then stageAbort STAGE_VIDEO_STREAM_START err st else
  let st : Session := stageDone STAGE_VIDEO_STREAM_START st
  -- audio stream establishment
  let st : Session := emit (Event.stageStarting STAGE_AUDIO_STREAM_START) st
  let st : Session := callExternal env Action.startAudioStream st
  let err : Int := env.result Action.startAudioStream
  if err ≠ 0 then stageAbort STAGE_AUDIO_STREAM_START err st else
  let st : Session := stageDone STAGE_AUDIO_STREAM_START st
  -- input stream establishment
  let st : Session := emit (Event.stageStarting STAGE_INPUT_STREAM_START) st
  let st : Session := callExternal env Action.startInputStream st
  let err : Int := env.result Action.startInputStream
  if err ≠ 0 then stageAbort STAGE_INPUT_STREAM_START err st else
  let st : Session := stageDone STAGE_INPUT_STREAM_START st
  let st : Session := emit Event.connectionStarted st
  (err, st)

/-- Whether an event is a delivery to the caller's original termination callback. -/
def Event.isTermination : Event → Bool
  | Event.connectionTerminated _ => true
  | _ => false

/-- The trace without the deliveries to the original termination callback: the external
calls, the stage notifications, `connectionStarted` and failed assertions, in order. -/
def withoutTerminations (tr : List Event) : List Event :=
  tr.filter (fun e => !e.isTermination)

/-- The error codes delivered to the caller's original termination callback, in order. -/
def deliveries (tr : List Event) : List Int :=
  tr.filterMap (fun e => match e with
    | Event.connectionTerminated c => some c
    | _ => none)

/-- The teardown entry points called by `LiStopConnection`. -/
def Action.isTeardown : Action → Bool
  | Action.stopInputStream => true
  | Action.stopAudioStream => true
  | Action.stopVideoStream => true
  | Action.stopControlStream => true
  | Action.destroyInputStream => true
  | Action.destroyAudioStream => true
  | Action.destroyVideoStream => true
  | Action.destroyControlStream => true
  | Action.terminateRtspHandshake => true
  | Action.cleanupPlatform => true
  | _ => false

/-- The value the file-local `resolveHostName` returns, as a function of the resolver's
behaviour: the resolver's error code, or -1 for a success without addresses, or 0. -/
def nameResolutionResult (env : Env) : Int :=
  if env.result Action.getaddrinfo ≠ 0 then env.result Action.getaddrinfo
  else if env.resNull then -1
  else 0

/-- The stages of the start sequence in ascending order, each with the external entry
point its action calls (section 4.1, item 4 of the specification). -/
def stageActions : List (Int × Action) :=
  [ (STAGE_PLATFORM_INIT, Action.initializePlatform),
    (STAGE_NAME_RESOLUTION, Action.getaddrinfo),
    (STAGE_RTSP_HANDSHAKE, Action.performRtspHandshake),
    (STAGE_CONTROL_STREAM_INIT, Action.initializeControlStream),
    (STAGE_VIDEO_STREAM_INIT, Action.initializeVideoStream),
    (STAGE_AUDIO_STREAM_INIT, Action.initializeAudioStream),
    (STAGE_INPUT_STREAM_INIT, Action.initializeInputStream),
    (STAGE_CONTROL_STREAM_START, Action.startControlStream),
    (STAGE_VIDEO_STREAM_START, Action.startVideoStream),
    (STAGE_AUDIO_STREAM_START, Action.startAudioStream),
    (STAGE_INPUT_STREAM_START, Action.startInputStream) ]

/-- The error code of the action of stage `k` (0 is success): the video, audio and input
initialisation stages return `void` and cannot fail. -/
def stageActionResult (env : Env) (k : Int) : Int :=
  if k = STAGE_PLATFORM_INIT then env.result Action.initializePlatform
  else if k = STAGE_NAME_RESOLUTION then nameResolutionResult env
  else if k = STAGE_RTSP_HANDSHAKE then env.result Action.performRtspHandshake
  else if k = STAGE_CONTROL_STREAM_INIT then env.result Action.initializeControlStream
  else if k = STAGE_CONTROL_STREAM_START then env.result Action.startControlStream
  else if k = STAGE_VIDEO_STREAM_START then env.result Action.startVideoStream
  else if k = STAGE_AUDIO_STREAM_START then env.result Action.startAudioStream
  else if k = STAGE_INPUT_STREAM_START then env.result Action.startInputStream
  else 0

/-- The notification sequence of a start in which every stage succeeds: for each stage in
ascending order `stageStarting`, the stage's action, `stageComplete`; then
`connectionStarted`. -/
def successTrace : List Event :=
  (stageActions.map (fun p =>
      [Event.stageStarting p.1, Event.call p.2, Event.stageComplete p.1])).flatten
    ++ [Event.connectionStarted]

/-- The teardown action paired with each stage (section 4.1, item 4 of the specification);
name resolution and `STAGE_NONE` have none. -/
def teardownOf (k : Int) : Option Action :=
  if k = STAGE_INPUT_STREAM_START then some Action.stopInputStream
  else if k = STAGE_AUDIO_STREAM_START then some Action.stopAudioStream
  else if k = STAGE_VIDEO_STREAM_START then some Action.stopVideoStream
  else if k = STAGE_CONTROL_STREAM_START then some Action.stopControlStream
  else if k = STAGE_INPUT_STREAM_INIT then some Action.destroyInputStream
  else if k = STAGE_AUDIO_STREAM_INIT then some Action.destroyAudioStream
  else if k = STAGE_VIDEO_STREAM_INIT then some Action.destroyVideoStream
  else if k = STAGE_CONTROL_STREAM_INIT then some Action.destroyControlStream
  else if k = STAGE_RTSP_HANDSHAKE then some Action.terminateRtspHandshake
  else if k = STAGE_PLATFORM_INIT then some Action.cleanupPlatform
  else none

/-- The stages `s, s-1, ..., 1` in descending order. -/
def stagesDownFrom (s : Int) : List Int :=
  ((List.range s.toNat).map (fun i : Nat => (i : Int) + 1)).reverse

/-- The calls a rollback from stage `s` is specified to make: the teardown actions paired
with the stages `s, s-1, ..., 1`, in that order, once each. -/
def rollbackCalls (s : Int) : List Event :=
  ((stagesDownFrom s).filterMap teardownOf).map Event.call

/-- What can happen to a session once `LiStartConnection` has installed the wrapper and
reset the latch: a call of `ListenerCallbacks.connectionTerminated(errorCode)` (the
wrapper), or a call of `LiStopConnection()`. -/
inductive Op where
  | terminated (errorCode : Int)
  | stop
  deriving DecidableEq, Repr

/-- Run one call against the session. -/
def runOp (env : Env) : Op → Session → Session
  | Op.terminated errorCode, st => ClInternalConnectionTerminated errorCode st
  | Op.stop, st => LiStopConnection env st

/-- Run a finite sequence of calls, in order. -/
def runOps (env : Env) (ops : List Op) (st : Session) : Session :=
  ops.foldl (fun s o => runOp env o s) st

/-- The error code of the first wrapper call in a sequence of calls, if there is one. -/
def firstTerminationCode : List Op → Option Int
  | [] => none
  | Op.terminated errorCode :: _ => some errorCode
  | Op.stop :: rest => firstTerminationCode rest

/-- The latch is set and the deliveries so far are `d`. -/
def Latched (d : List Int) (st : Session) : Prop :=
  st.alreadyTerminated = 1 ∧ deliveries st.trace = d

/-- The stages whose `stageComplete` notification a trace holds, in order. In
`LiStartConnection` every `stage++` is followed by `LC_ASSERT(stage == STAGE_x)` and
`stageComplete(STAGE_x)`, so when no assertion failed this is the sequence of values the
counter was incremented to. -/
def completedStages (tr : List Event) : List Int :=
  tr.filterMap (fun e => match e with
    | Event.stageComplete k => some k
    | _ => none)

/-- The stages `1, 2, ..., n` in ascending order. -/
def stagesUpTo (n : Int) : List Int :=
  (List.range n.toNat).map (fun i : Nat => (i : Int) + 1)

/-- The teardown blocks of `LiStopConnection` in program order (lines 44-107): the stage each
block tests and the teardown action it calls (`none` for name resolution). -/
def stopBlocks : List (Int × Option Action) :=
  [ (STAGE_INPUT_STREAM_START, some Action.stopInputStream),
    (STAGE_AUDIO_STREAM_START, some Action.stopAudioStream),
    (STAGE_VIDEO_STREAM_START, some Action.stopVideoStream),
    (STAGE_CONTROL_STREAM_START, some Action.stopControlStream),
    (STAGE_INPUT_STREAM_INIT, some Action.destroyInputStream),
    (STAGE_AUDIO_STREAM_INIT, some Action.destroyAudioStream),
    (STAGE_VIDEO_STREAM_INIT, some Action.destroyVideoStream),
    (STAGE_CONTROL_STREAM_INIT, some Action.destroyControlStream),
    (STAGE_RTSP_HANDSHAKE, some Action.terminateRtspHandshake),
    (STAGE_NAME_RESOLUTION, none),
    (STAGE_PLATFORM_INIT, some Action.cleanupPlatform) ]

/-- The sessions reached after each of the given teardown blocks, run in order from `st`. -/
def runStopBlocks (env : Env) : List (Int × Option Action) → Session → List Session
  | [], _ => []
  | b :: rest, st =>
    stopStep env b.1 b.2 st :: runStopBlocks env rest (stopStep env b.1 b.2 st)

/-- The sessions `LiStopConnection` passes through: after the latch is set, and after each
of its eleven teardown blocks. -/
def stopSessions (env : Env) (st : Session) : List Session :=
  { st with alreadyTerminated := 1 }
    :: runStopBlocks env stopBlocks { st with alreadyTerminated := 1 }

/-- The values of the stage counter during `LiStopConnection`: after the latch is set (the
value on entry), and after each of its eleven teardown blocks. -/
def stopStages (env : Env) (st : Session) : List Int :=
  (stopSessions env st).map Session.stage

/-- What a stage block of `LiStartConnection` does between `stageStarting` and its success
tail: call an entry point and test its result, call an entry point that returns `void`, or
call the file-local `resolveHostName` and test its result. -/
inductive StageBody where
  | call (a : Action)
  | callVoid (a : Action)
  | resolve
  deriving DecidableEq, Repr

/-- The stage blocks of `LiStartConnection` in program order (lines 177-304). -/
def startBlocks : List (Int × StageBody) :=
  [ (STAGE_PLATFORM_INIT, StageBody.call Action.initializePlatform),
    (STAGE_NAME_RESOLUTION, StageBody.resolve),
    (STAGE_RTSP_HANDSHAKE, StageBody.call Action.performRtspHandshake),
    (STAGE_CONTROL_STREAM_INIT, StageBody.call Action.initializeControlStream),
    (STAGE_VIDEO_STREAM_INIT, StageBody.callVoid Action.initializeVideoStream),
    (STAGE_AUDIO_STREAM_INIT, StageBody.callVoid Action.initializeAudioStream),
    (STAGE_INPUT_STREAM_INIT, StageBody.callVoid Action.initializeInputStream),
    (STAGE_CONTROL_STREAM_START, StageBody.call Action.startControlStream),
    (STAGE_VIDEO_STREAM_START, StageBody.call Action.startVideoStream),
    (STAGE_AUDIO_STREAM_START, StageBody.call Action.startAudioStream),
    (STAGE_INPUT_STREAM_START, StageBody.call Action.startInputStream) ]

/-- Run the given stage blocks in order from `st`, `err` being the current value of the
local variable `err`; after the last block `connectionStarted` is notified. The result is
what `LiStartConnection` returns together with the sessions reached after the success tail
(`stage++`, assertion, `stageComplete`) of each block that completed. -/
def runStartBlocks (env : Env) :
    List (Int × StageBody) → Int → Session → (Int × Session) × List Session
  | [], err, st => ((err, emit Event.connectionStarted st), [])
  | (s, StageBody.callVoid a) :: rest, err, st =>
    let st1 : Session := stageDone s (callExternal env a (emit (Event.stageStarting s) st))
    ((runStartBlocks env rest err st1).1, st1 :: (runStartBlocks env rest err st1).2)
  | (s, StageBody.call a) :: rest, _, st =>
    let st0 : Session := callExternal env a (emit (Event.stageStarting s) st)
    if env.result a ≠ 0 then
      (stageAbort s (env.result a) st0, [])
    else
      ((runStartBlocks env rest (env.result a) (stageDone s st0)).1,
        stageDone s st0 :: (runStartBlocks env rest (env.result a) (stageDone s st0)).2)
  | (s, StageBody.resolve) :: rest, _, st =>
    let r : Int × Session := resolveHostName env (emit (Event.stageStarting s) st)
    if r.1 ≠ 0 then
      (stageAbort s r.1 r.2, [])
    else
      ((runStartBlocks env rest r.1 (stageDone s r.2)).1,
        stageDone s r.2 :: (runStartBlocks env rest r.1 (stageDone s r.2)).2)

/-- The values of the stage counter during `LiStartConnection`: after the latch is reset
(the value on entry), and after the success tail of each stage block that completed. -/
def startStages (env : Env) (st : Session) : List Int :=
  st.stage :: (runStartBlocks env startBlocks 0 { st with alreadyTerminated := 0 }).2.map
    Session.stage

/-- An environment in which every entry point succeeds and no subsystem raises a
termination report. -/
def quietEnv : Env :=
  { result := fun _ => 0
    resNull := false
    raised := fun _ => [] }

/-- An environment in which every entry point succeeds and `stopVideoStream` reports a
termination with code 7 while it runs. -/
def noisyTeardownEnv : Env :=
  { result := fun _ => 0
    resNull := false
    raised := fun a => if a = Action.stopVideoStream then [7] else [] }

/-- An environment in which every entry point succeeds except the resolver, which reports
`EAI_NONAME` (-2), and in which no subsystem raises a termination report. -/
def dnsFailureEnv : Env :=
  { result := fun a => if a = Action.getaddrinfo then -2 else 0
    resNull := false
    raised := fun _ => [] }

end Connection

namespace PlatformSockets

/-- Address family `AF_INET` of the system headers (its Linux value; the code only compares
families for equality). -/
abbrev AF_INET : Int := 2

/-- Address family `AF_INET6` of the system headers (its Linux value; the code only compares
families for equality). -/
abbrev AF_INET6 : Int := 10

/-- Constant `TCPv4_MSS`, line 9. -/
abbrev TCPv4_MSS : Int := 536

/-- A `struct sockaddr_storage` as `isPrivateNetworkAddress` reads it: the family, the four
bytes of `sin_addr` seen through the `sockaddr_in` cast and the sixteen bytes of
`sin6_addr.s6_addr` seen through the `sockaddr_in6` cast, both in memory (network) order. -/
structure SockaddrStorage where
  ss_family : Int
  sin_addr : List Nat
  s6_addr : List Nat
  deriving DecidableEq, Repr

/-- Read the `unsigned char` at index `i` of a byte array. -/
def byteAt (bytes : List Nat) (i : Nat) : Nat :=
  bytes.getD i 0 % 256

/-- The iterations `i, i+1, ...` of the `for` loop of `isInSubnetV6`, with `remaining`
iterations left before `i` reaches `prefixLength`. -/
def isInSubnetV6From (s6_addr subnet : List Nat) (i : Nat) : (remaining : Nat) → Int
  | 0 => 1
  | remaining + 1 =>
    let mask := (1 <<< (i % 8)) % 256
    if byteAt s6_addr (i / 8) &&& mask ≠ byteAt subnet (i / 8) &&& mask then
      0
    else
      isInSubnetV6From s6_addr subnet (i + 1) remaining

/-- Function `isInSubnetV6`, lines 486-497. -/
def isInSubnetV6 (s6_addr subnet : List Nat) (prefixLength : Int) : Int :=
  isInSubnetV6From s6_addr subnet 0 prefixLength.toNat

/-- The copy `memcpy(&addr, &sin_addr, sizeof(addr))` into an `unsigned int`, on a little-endian or a
big-endian host. -/
def loadU32 (littleEndian : Bool) (bytes : List Nat) : Nat :=
  if littleEndian then
    byteAt bytes 0 + byteAt bytes 1 * 2 ^ 8 + byteAt bytes 2 * 2 ^ 16 + byteAt bytes 3 * 2 ^ 24
  else
    byteAt bytes 3 + byteAt bytes 2 * 2 ^ 8 + byteAt bytes 1 * 2 ^ 16 + byteAt bytes 0 * 2 ^ 24

/-- Function `htonl` on a 32-bit value: a byte swap on a little-endian host, the identity on a
big-endian one. -/
def htonl (littleEndian : Bool) (x : Nat) : Nat :=
  if littleEndian then
    x % 2 ^ 8 * 2 ^ 24 + x / 2 ^ 8 % 2 ^ 8 * 2 ^ 16 + x / 2 ^ 16 % 2 ^ 8 * 2 ^ 8 + x / 2 ^ 24 % 2 ^ 8
  else
    x % 2 ^ 32

/-- Array `linkLocalPrefix`, line 527. -/
def linkLocalPrefix : List Nat := [0xfe, 0x80]

/-- Array `siteLocalPrefix`, line 528. -/
def siteLocalPrefix : List Nat := [0xfe, 0xc0]

/-- Array `uniqueLocalPrefix`, line 529. -/
def uniqueLocalPrefix : List Nat := [0xfc, 0x00]

/-- Function `isPrivateNetworkAddress`, lines 499-546, on a host of the given endianness. -/
def isPrivateNetworkAddress (littleEndian : Bool) (address : SockaddrStorage) : Int :=
  if address.ss_family = AF_INET then
    let addr := loadU32 littleEndian address.sin_addr
    let addr := htonl littleEndian addr
    -- 10.0.0.0/8
    if addr &&& 0xFF000000 = 0x0A000000 then 1
    -- 172.16.0.0/12
    else if addr &&& 0xFFF00000 = 0xAC100000 then 1
    -- 192.168.0.0/16
    else if addr &&& 0xFFFF0000 = 0xC0A80000 then 1
    -- 169.254.0.0/16
    else if addr &&& 0xFFFF0000 = 0xA9FE0000 then 1
    else 0
  else if address.ss_family = AF_INET6 then
    -- fe80::/10
    if isInSubnetV6 address.s6_addr linkLocalPrefix 10 ≠ 0 then 1
    -- fec0::/10
    else if isInSubnetV6 address.s6_addr siteLocalPrefix 10 ≠ 0 then 1
    -- fc00::/7
    else if isInSubnetV6 address.s6_addr uniqueLocalPrefix 7 ≠ 0 then 1
    else 0
  else
    0

/-- The loop of `sendMtuSafe`, lines 409-418. `sendResult j` is the value the `j`-th
`send` call (counted from 0) returns; `calls` are the `(offset, length)` pairs of the
`send(s, &buffer[offset], length, 0)` calls issued so far. -/
def sendMtuSafeLoop (sendResult : Nat → Int) (size bytesSent : Int)
    (calls : List (Int × Int)) : Int × List (Int × Int) :=
  if _h : bytesSent < size then
    let bytesToSend : Int := if size - bytesSent > TCPv4_MSS then TCPv4_MSS else size - bytesSent
    if sendResult calls.length < 0 then
      (-1, calls ++ [(bytesSent, bytesToSend)])
    else
      sendMtuSafeLoop sendResult size (bytesSent + bytesToSend) (calls ++ [(bytesSent, bytesToSend)])
  else
    (bytesSent, calls)
termination_by (size - bytesSent).toNat
decreasing_by
  simp only [TCPv4_MSS]
  split <;> omega

/-- Function `sendMtuSafe`, lines 406-421: the return value and the `send` calls issued. -/
def sendMtuSafe (sendResult : Nat → Int) (size : Int) : Int × List (Int × Int) :=
  sendMtuSafeLoop sendResult size 0 []

/-- An IPv4 `sockaddr_storage` with the given address bytes. -/
def ipv4 (a b c d : Nat) : SockaddrStorage :=
  { ss_family := AF_INET, sin_addr := [a, b, c, d], s6_addr := [] }

/-- An IPv6 `sockaddr_storage` with the given address bytes. -/
def ipv6 (bytes : List Nat) : SockaddrStorage :=
  { ss_family := AF_INET6, sin_addr := [], s6_addr := bytes }

/-- Bit `i` of a byte array, counted from the most significant bit of byte 0. -/
def bitMsbFirst (bytes : List Nat) (i : Nat) : Bool :=
  (byteAt bytes (i / 8)).testBit (7 - i % 8)

/-- The first `n` bits of `addr` (most significant bit of byte 0 first) equal the first `n`
bits of `subnet`. -/
def prefixMatches (addr subnet : List Nat) (n : Nat) : Bool :=
  (List.range n).all (fun i => bitMsbFirst addr i == bitMsbFirst subnet i)

/-- The address lies in fe80::/10, fec0::/10 or fc00::/7. -/
def inPrivateRangeV6 (addr : List Nat) : Bool :=
  prefixMatches addr [0xfe, 0x80] 10 || prefixMatches addr [0xfe, 0xc0] 10
    || prefixMatches addr [0xfc, 0x00] 7

/-- The `i`-th slice of a buffer of `size` bytes cut into pieces of 536 bytes: its offset
and its length. -/
def chunk (size : Int) (i : Nat) : Int × Int :=
  (536 * (i : Int), min 536 (size - 536 * (i : Int)))

/-- The number of slices: `size / 536` rounded up. -/
def chunkCount (size : Int) : Nat :=
  ((size + 535) / 536).toNat

/-- The slices of a buffer of `size` bytes, in increasing offset order. -/
def expectedSlices (size : Int) : List (Int × Int) :=
  (List.range (chunkCount size)).map (chunk size)

/-- The 32-bit value of the four bytes of an IPv4 address read in network order. -/
def ipv4Value (bytes : List Nat) : Nat :=
  byteAt bytes 0 * 2 ^ 24 + byteAt bytes 1 * 2 ^ 16 + byteAt bytes 2 * 2 ^ 8 + byteAt bytes 3

/-- The 32-bit address `a` lies in the IPv4 subnet `net/len`: the top `len` bits agree. -/
def inSubnetV4 (a net len : Nat) : Prop :=
  a / 2 ^ (32 - len) = net / 2 ^ (32 - len)

/-- Subnet membership is decidable. -/
instance decInSubnetV4 (a net len : Nat) : Decidable (inSubnetV4 a net len) :=
  inferInstanceAs (Decidable (a / 2 ^ (32 - len) = net / 2 ^ (32 - len)))

/-- The four private IPv4 ranges: 10.0.0.0/8, 172.16.0.0/12, 192.168.0.0/16 and
169.254.0.0/16. -/
def inPrivateRangeV4 (a : Nat) : Prop :=
  inSubnetV4 a 0x0A000000 8 ∨ inSubnetV4 a 0xAC100000 12 ∨ inSubnetV4 a 0xC0A80000 16
    ∨ inSubnetV4 a 0xA9FE0000 16

/-- Membership in the private IPv4 ranges is decidable. -/
instance decInPrivateRangeV4 (a : Nat) : Decidable (inPrivateRangeV4 a) :=
  inferInstanceAs (Decidable (inSubnetV4 a 0x0A000000 8 ∨ inSubnetV4 a 0xAC100000 12
    ∨ inSubnetV4 a 0xC0A80000 16 ∨ inSubnetV4 a 0xA9FE0000 16))

/-- Constants the socket code takes from headers that are not among the sources: the
`errno` values of the system headers and the two test-port macros of
`Limelight-internal.h`. The code only compares the former for equality and masks with the
latter, so they are parameters. -/
structure Platform where
  EWOULDBLOCK : Int
  EAGAIN : Int
  EINPROGRESS : Int
  ETIMEDOUT : Int
  TCP_PORT_MASK : Int
  TCP_PORT_FLAG_ALWAYS_TEST : Int

/-- The socket-level calls the embedded functions make, in program order. A socket handle
is an `Int`; `INVALID_SOCKET` is `none` wherever a `SOCKET` is returned. -/
inductive SockCall where
  | socket
  | setSocketNonBlocking (s : Int) (val : Int)
  | bind (s : Int)
  | setsockoptRcvBuf (s : Int) (bufferSize : Int)
  | connect (s : Int) (port : Int)
  | pollSockets (s : Int) (timeoutMs : Int)
  | getsockoptSoError (s : Int)
  | closeSocket (s : Int)
  | SetLastSocketError (err : Int)
  deriving DecidableEq, Repr

/-- What the operating system answers during one `connectTcpSocket` call. -/
structure ConnectEnv where
  /-- Result of `socket()`; `none` is `INVALID_SOCKET`. -/
  socket : Option Int
  /-- Return value of `connect()`. -/
  connectRet : Int
  /-- Value of `LastSocketError()` after a negative `connect()`. -/
  connectError : Int
  /-- Return value of `pollSockets()`. -/
  pollRet : Int
  /-- Value of `LastSocketError()` after a negative `pollSockets()`. -/
  pollError : Int
  /-- The value `getsockopt(SO_ERROR)` stores into `err`; `none` when the call itself fails
  and leaves `err` as it was. -/
  soError : Option Int
  /-- Whether `pfd.revents & POLLERR` is non-zero. -/
  pollErrBit : Bool
  /-- Value of the macro `LastSocketFail()` of `PlatformSockets.h`. -/
  lastSocketFail : Int

/-- Outcome of a socket-creating function: the `SOCKET` returned, the value last passed to
`SetLastSocketError` (if any), and the calls made. -/
structure SocketResult where
  sock : Option Int
  lastSocketError : Option Int
  calls : List SockCall
  deriving DecidableEq, Repr

/-- Function `createSocket`, lines 271-291 (the Darwin-only `SO_NOSIGPIPE` option is left
out): the socket and the calls made. -/
def createSocket (socket : Option Int) (nonBlocking : Int) : Option Int × List SockCall :=
  match socket with
  | none => (none, [SockCall.socket])
  | some s =>
    if nonBlocking ≠ 0 then
      (some s, [SockCall.socket, SockCall.setSocketNonBlocking s 1])
    else
      (some s, [SockCall.socket])

/-- The code after the label `Exit:` of `connectTcpSocket`, lines 393-401. -/
def connectExit (s err : Int) (calls : List SockCall) : SocketResult :=
  if err ≠ 0 then
    ⟨none, some err, calls ++ [SockCall.closeSocket s, SockCall.SetLastSocketError err]⟩
  else
    ⟨some s, none, calls⟩

/-- Function `connectTcpSocket`, lines 295-402. The best-effort `setsockopt` that clamps
the segment size (lines 319-348) does not influence the control flow and is left out. -/
def connectTcpSocket (P : Platform) (env : ConnectEnv) (port timeoutSec : Int) : SocketResult :=
  let c := createSocket env.socket 1
  match c.1 with
  | none => ⟨none, none, c.2⟩
  | some s =>
    -- Start connection
    let calls : List SockCall := c.2 ++ [SockCall.connect s port]
    let err : Int := if env.connectRet < 0 then env.connectError else env.connectRet
    if env.connectRet < 0 ∧ err ≠ P.EWOULDBLOCK ∧ err ≠ P.EAGAIN ∧ err ≠ P.EINPROGRESS then
      connectExit s err calls
    else
      -- Wait for the connection to complete or the timeout to elapse
      let calls : List SockCall := calls ++ [SockCall.pollSockets s (timeoutSec * 1000)]
      let err : Int := env.pollRet
      if err < 0 then
        -- pollSockets() failed
        let err : Int := env.pollError
        ⟨none, some err, calls ++ [SockCall.closeSocket s, SockCall.SetLastSocketError err]⟩
      else if err = 0 then
        -- pollSockets() timed out
        ⟨none, some P.ETIMEDOUT,
          calls ++ [SockCall.closeSocket s, SockCall.SetLastSocketError P.ETIMEDOUT]⟩
      else
        -- The socket was signalled
        let calls : List SockCall := calls ++ [SockCall.getsockoptSoError s]
        let err : Int := match env.soError with
          | some e => e
          | none => err
        let err : Int :=
          if err ≠ 0 ∨ env.pollErrBit = true then
            (if err ≠ 0 then err else env.lastSocketFail)
          else err
        -- Disable non-blocking I/O now that the connection is established
        let calls : List SockCall := calls ++ [SockCall.setSocketNonBlocking s 0]
        connectExit s err calls

/-- Constant `TEST_PORT_TIMEOUT_SEC`, line 4. -/
abbrev TEST_PORT_TIMEOUT_SEC : Int := 3

/-- What the resolver and the network answer during one `resolveHostName` call. -/
structure ResolveEnv where
  /-- Return value of `getaddrinfo()`. -/
  getaddrinfoErr : Int
  /-- The candidate list `res` in resolver order; `[]` is `res == NULL`. -/
  res : List SockaddrStorage
  /-- The operating system's answers while the candidate number `i` (from 0) is probed. -/
  net : Nat → ConnectEnv

/-- Outcome of `resolveHostName`: the return value, the address stored into `*addr` (if
any), the `connectTcpSocket` probes made (candidate and port, in order) and the test sockets
closed. -/
structure ResolveResult where
  ret : Int
  addr : Option SockaddrStorage
  probes : List (SockaddrStorage × Int)
  closed : List Int
  deriving DecidableEq, Repr

/-- The test of line 460: `tcpTestPort != 0 && (res->ai_next != NULL ||
(tcpTestPort & TCP_PORT_FLAG_ALWAYS_TEST))`. -/
def shouldTest (P : Platform) (tcpTestPort : Int) (res : List SockaddrStorage) : Bool :=
  tcpTestPort ≠ 0 &&
    (!res.tail.isEmpty || Int.land tcpTestPort P.TCP_PORT_FLAG_ALWAYS_TEST ≠ 0)

/-- The port handed to `connectTcpSocket`: `tcpTestPort & TCP_PORT_MASK`, converted to
`unsigned short`. -/
def testPort (P : Platform) (tcpTestPort : Int) : Int :=
  Int.land tcpTestPort P.TCP_PORT_MASK % 65536

/-- The `for` loop of `resolveHostName`, lines 456-479, from the candidate number `i` on,
and the code after it (lines 481-483). -/
def resolveLoop (P : Platform) (env : ResolveEnv) (tcpTestPort : Int) :
    Nat → List SockaddrStorage → ResolveResult
  | _, [] => ⟨-1, none, [], []⟩
  | i, currentAddr :: next =>
    if shouldTest P tcpTestPort env.res then
      match (connectTcpSocket P (env.net i) (testPort P tcpTestPort) TEST_PORT_TIMEOUT_SEC).sock with
      | none =>
        -- Try the next address
        let r := resolveLoop P env tcpTestPort (i + 1) next
        { r with probes := (currentAddr, testPort P tcpTestPort) :: r.probes }
      | some testSocket =>
        ⟨0, some currentAddr, [(currentAddr, testPort P tcpTestPort)], [testSocket]⟩
    else
      ⟨0, some currentAddr, [], []⟩

/-- Function `resolveHostName` of `PlatformSockets.c`, lines 436-484. -/
def resolveHostName (P : Platform) (env : ResolveEnv) (tcpTestPort : Int) : ResolveResult :=
  if env.getaddrinfoErr ≠ 0 then
    ⟨env.getaddrinfoErr, none, [], []⟩
  else if env.res.isEmpty then
    ⟨-1, none, [], []⟩
  else
    resolveLoop P env tcpTestPort 0 env.res

/-- Constant `RCV_BUFFER_SIZE_MIN`, line 6. -/
abbrev RCV_BUFFER_SIZE_MIN : Int := 32767

/-- Constant `RCV_BUFFER_SIZE_STEP`, line 7. -/
abbrev RCV_BUFFER_SIZE_STEP : Int := 16384

/-- The receive-buffer loop of `bindUdpSocket`, lines 229-247. `setsockoptRet j` is what the
`j`-th `setsockopt(SO_RCVBUF)` call (counted from 0) returns; `attempts` are the sizes
requested so far. The result is the final `err` and the sizes requested. -/
def rcvBufLoop (setsockoptRet : Nat → Int) (bufferSize : Int) (attempts : List Int) :
    Int × List Int :=
  let err : Int := setsockoptRet attempts.length
  if err = 0 then
    -- Successfully set a buffer size
    (err, attempts ++ [bufferSize])
  else if _h1 : bufferSize ≤ RCV_BUFFER_SIZE_MIN then
    -- Failed to set a buffer size within the allowable range
    (err, attempts ++ [bufferSize])
  else if _h2 : bufferSize - RCV_BUFFER_SIZE_STEP ≤ RCV_BUFFER_SIZE_MIN then
    -- Last shot - we're trying the minimum
    rcvBufLoop setsockoptRet RCV_BUFFER_SIZE_MIN (attempts ++ [bufferSize])
  else
    -- Lower the requested size by another step
    rcvBufLoop setsockoptRet (bufferSize - RCV_BUFFER_SIZE_STEP) (attempts ++ [bufferSize])
termination_by (bufferSize - RCV_BUFFER_SIZE_MIN).toNat
decreasing_by
  all_goals simp only [RCV_BUFFER_SIZE_MIN, RCV_BUFFER_SIZE_STEP] at *
  all_goals omega

/-- What the operating system answers during one `bindUdpSocket` call. -/
structure BindEnv where
  /-- Result of `socket()`; `none` is `INVALID_SOCKET`. -/
  socket : Option Int
  /-- Whether `bind()` returns `SOCKET_ERROR`. -/
  bindFails : Bool
  /-- Value of `LastSocketError()` after a failed `bind()`. -/
  bindError : Int
  /-- Return value of the `j`-th `setsockopt(SO_RCVBUF)` call, counted from 0. -/
  setsockoptRet : Nat → Int

/-- Function `bindUdpSocket`, lines 194-259 (the opening `LC_ASSERT` on the family and the
Darwin-only `SO_NOSIGPIPE` option are left out). -/
def bindUdpSocket (env : BindEnv) (bufferSize : Int) : SocketResult :=
  let c := createSocket env.socket 0
  match c.1 with
  | none => ⟨none, none, c.2⟩
  | some s =>
    if env.bindFails then
      ⟨none, some env.bindError,
        c.2 ++ [SockCall.bind s, SockCall.closeSocket s, SockCall.SetLastSocketError env.bindError]⟩
    else
      let r := rcvBufLoop env.setsockoptRet bufferSize []
      ⟨some s, none, c.2 ++ [SockCall.bind s] ++ r.2.map (SockCall.setsockoptRcvBuf s)⟩

/-- Whether the probe of the candidate number `i` yields a connected socket. -/
def reachable (P : Platform) (env : ResolveEnv) (tcpTestPort : Int) (i : Nat) : Bool :=
  (connectTcpSocket P (env.net i) (testPort P tcpTestPort) TEST_PORT_TIMEOUT_SEC).sock.isSome

/-- Sample values for the header constants: the Linux `errno` numbers, a 16-bit port mask
and an always-test flag in bit 16. -/
def linuxPlatform : Platform :=
  { EWOULDBLOCK := 11, EAGAIN := 11, EINPROGRESS := 115, ETIMEDOUT := 110
    TCP_PORT_MASK := 0xFFFF, TCP_PORT_FLAG_ALWAYS_TEST := 0x10000 }

/-- A peer that accepts: `connect` is in progress, the poll signals the socket and
`SO_ERROR` is 0. -/
def acceptingNet : ConnectEnv :=
  { socket := some 5, connectRet := -1, connectError := 115, pollRet := 1, pollError := 0
    soError := some 0, pollErrBit := false, lastSocketFail := -1 }

/-- A peer that refuses: the poll signals the socket and `SO_ERROR` is `ECONNREFUSED`
(111). -/
def refusingNet : ConnectEnv :=
  { socket := some 5, connectRet := -1, connectError := 115, pollRet := 1, pollError := 0
    soError := some 111, pollErrBit := false, lastSocketFail := -1 }

/-- A peer that never answers: the poll returns 0, while `SO_ERROR` and `revents` would
report an error if they were read. -/
def silentNet : ConnectEnv :=
  { socket := some 5, connectRet := -1, connectError := 115, pollRet := 0, pollError := 0
    soError := some 111, pollErrBit := true, lastSocketFail := -1 }

/-- A network that rejects the `connect` call itself with `ENETUNREACH` (101). -/
def unroutableNet : ConnectEnv :=
  { socket := some 5, connectRet := -1, connectError := 101, pollRet := 1, pollError := 0
    soError := some 0, pollErrBit := false, lastSocketFail := -1 }

/-- A lookup with two candidates of which only the second accepts. -/
def secondOnlyEnv : ResolveEnv :=
  { getaddrinfoErr := 0
    res := [ipv4 192 0 2 1, ipv4 192 0 2 2]
    net := fun i => if i = 1 then acceptingNet else refusingNet }

/-- A lookup with two candidates, both refusing. -/
def noneReachableEnv : ResolveEnv :=
  { getaddrinfoErr := 0
    res := [ipv4 192 0 2 1, ipv4 192 0 2 2]
    net := fun _ => refusingNet }

/-- A lookup that fails with the resolver code -1 (`EAI_BADFLAGS` in glibc). -/
def lookupFailsEnv : ResolveEnv :=
  { getaddrinfoErr := -1
    res := []
    net := fun _ => refusingNet }

/-- The number of sizes above the floor that are tried when every request is rejected:
`(r - 32767) / 16384` rounded up. -/
def stepDownCount (r : Int) : Nat :=
  ((r - RCV_BUFFER_SIZE_MIN + (RCV_BUFFER_SIZE_STEP - 1)) / RCV_BUFFER_SIZE_STEP).toNat

/-- The sizes the specification lists for a request of `r` bytes when every attempt is
rejected: for `r` above the floor `r, r - 16384, r - 2 * 16384, ...` while the value is above
the floor, then the floor once; for `r` at or below the floor `r` alone. -/
def rejectedAttempts (r : Int) : List Int :=
  if r > RCV_BUFFER_SIZE_MIN then
    (List.range (stepDownCount r)).map (fun i : Nat => r - RCV_BUFFER_SIZE_STEP * (i : Int))
      ++ [RCV_BUFFER_SIZE_MIN]
  else
    [r]

end PlatformSockets

/-! ## Theorems about `Connection.c` -/

namespace Connection

@[simp]
theorem emit_stage (e : Event) (st : Session) : (emit e st).stage = st.stage := rfl

@[simp]
theorem emit_alreadyTerminated (e : Event) (st : Session) :
    (emit e st).alreadyTerminated = st.alreadyTerminated := rfl

@[simp]
theorem emit_trace (e : Event) (st : Session) : (emit e st).trace = st.trace ++ [e] := rfl

@[simp]
theorem withoutTerminations_nil : withoutTerminations [] = [] := rfl

@[simp]
theorem withoutTerminations_append (xs ys : List Event) :
    withoutTerminations (xs ++ ys) = withoutTerminations xs ++ withoutTerminations ys := by
  simp [withoutTerminations]

@[simp]
theorem withoutTerminations_cons (e : Event) (xs : List Event) :
    withoutTerminations (e :: xs)
      = if e.isTermination then withoutTerminations xs else e :: withoutTerminations xs := by
  cases h : e.isTermination <;> simp [withoutTerminations, h]

theorem mem_withoutTerminations {e : Event} (h : e.isTermination = false) (tr : List Event) :
    e ∈ tr ↔ e ∈ withoutTerminations tr := by
  simp [withoutTerminations, h]

theorem count_withoutTerminations {e : Event} (h : e.isTermination = false) (tr : List Event) :
    tr.count e = (withoutTerminations tr).count e := by
  induction tr with
  | nil => rfl
  | cons x xs ih =>
    by_cases hx : x.isTermination = true
    · have hne : x ≠ e := by
        intro hxe
        rw [hxe] at hx
        rw [h] at hx
        exact Bool.false_ne_true hx
      simp [List.count_cons, hx, hne, ih]
    · simp [List.count_cons, hx, ih]

/-- The wrapper never touches the stage counter. -/
@[simp]
theorem ClInternalConnectionTerminated_stage (c : Int) (st : Session) :
    (ClInternalConnectionTerminated c st).stage = st.stage := by
  unfold ClInternalConnectionTerminated
  split <;> rfl

/-- The wrapper adds nothing but a delivery to the original callback. -/
@[simp]
theorem ClInternalConnectionTerminated_view (c : Int) (st : Session) :
    withoutTerminations (ClInternalConnectionTerminated c st).trace
      = withoutTerminations st.trace := by
  unfold ClInternalConnectionTerminated
  split <;> simp [Event.isTermination]

/-- Once the latch is set the wrapper is the identity. -/
theorem ClInternalConnectionTerminated_latched (c : Int) (st : Session)
    (h : st.alreadyTerminated ≠ 0) : ClInternalConnectionTerminated c st = st := by
  unfold ClInternalConnectionTerminated
  rw [if_pos h]

theorem raised_stage (l : List Int) (st : Session) :
    (l.foldl (fun s c => ClInternalConnectionTerminated c s) st).stage = st.stage := by
  induction l generalizing st with
  | nil => rfl
  | cons c cs ih => simp [List.foldl_cons, ih]

theorem raised_view (l : List Int) (st : Session) :
    withoutTerminations (l.foldl (fun s c => ClInternalConnectionTerminated c s) st).trace
      = withoutTerminations st.trace := by
  induction l generalizing st with
  | nil => rfl
  | cons c cs ih => simp [List.foldl_cons, ih]

theorem raised_latched (l : List Int) (st : Session) (h : st.alreadyTerminated ≠ 0) :
    l.foldl (fun s c => ClInternalConnectionTerminated c s) st = st := by
  induction l with
  | nil => rfl
  | cons c cs ih => simp [List.foldl_cons, ClInternalConnectionTerminated_latched c st h, ih]

@[simp]
theorem callExternal_stage (env : Env) (a : Action) (st : Session) :
    (callExternal env a st).stage = st.stage := by
  simp [callExternal, raised_stage]

@[simp]
theorem callExternal_view (env : Env) (a : Action) (st : Session) :
    withoutTerminations (callExternal env a st).trace
      = withoutTerminations st.trace ++ [Event.call a] := by
  simp [callExternal, raised_view, Event.isTermination]

theorem callExternal_latched (env : Env) (a : Action) (st : Session)
    (h : st.alreadyTerminated ≠ 0) : callExternal env a st = emit (Event.call a) st := by
  unfold callExternal
  exact raised_latched _ _ (by simpa using h)

@[simp]
theorem stageDone_stage (s : Int) (st : Session) :
    (stageDone s st).stage = st.stage + 1 := by
  simp only [stageDone, LC_ASSERT]
  split <;> rfl

@[simp]
theorem stageDone_view (s : Int) (st : Session) :
    withoutTerminations (stageDone s st).trace
      = withoutTerminations st.trace
          ++ (if st.stage + 1 = s then [] else [Event.assertFailed]) ++ [Event.stageComplete s] := by
  simp only [stageDone, LC_ASSERT]
  by_cases h : st.stage + 1 = s <;> simp [h, Event.isTermination]

@[simp]
theorem resolveHostName_stage (env : Env) (st : Session) :
    (resolveHostName env st).2.stage = st.stage := by
  simp only [resolveHostName]
  split_ifs <;> simp

@[simp]
theorem resolveHostName_view (env : Env) (st : Session) :
    withoutTerminations (resolveHostName env st).2.trace
      = withoutTerminations st.trace ++ [Event.call Action.getaddrinfo] := by
  simp only [resolveHostName]
  split_ifs <;> simp

@[simp]
theorem resolveHostName_result (env : Env) (st : Session) :
    (resolveHostName env st).1 = nameResolutionResult env := by
  simp only [resolveHostName, nameResolutionResult]
  split_ifs <;> rfl

/-- A successful name resolution means the resolver returned 0 and a non-null result. -/
theorem nameResolutionResult_eq_zero (env : Env) (h : nameResolutionResult env = 0) :
    env.result Action.getaddrinfo = 0 ∧ env.resNull = false := by
  unfold nameResolutionResult at h
  by_cases hg : env.result Action.getaddrinfo = 0
  · refine ⟨hg, ?_⟩
    cases hn : env.resNull
    · rfl
    · simp [hg, hn] at h
  · simp [hg] at h

/-- C4: if every stage action succeeds and the stage counter starts at `STAGE_NONE`,
`LiStartConnection` returns 0 and the notifications and stage actions it issues are exactly
`successTrace`: for each stage from `STAGE_PLATFORM_INIT` to `STAGE_INPUT_STREAM_START` in
ascending order `stageStarting(k)`, the action of stage `k`, `stageComplete(k)`, and then
`connectionStarted()` once, as the last notification; `stageFailed` is never invoked. The
only other events a trace can hold are deliveries to the caller's termination callback,
raised by a subsystem while a stage action runs; when no subsystem raises one the trace is
`successTrace` itself. -/
theorem LiStartConnection_all_succeed (env : Env) (latch : Int)
    (hok : ∀ k : Int, STAGE_PLATFORM_INIT ≤ k → k ≤ STAGE_INPUT_STREAM_START →
      stageActionResult env k = 0) :
    (LiStartConnection env ⟨STAGE_NONE, latch, []⟩).1 = 0
    ∧ withoutTerminations (LiStartConnection env ⟨STAGE_NONE, latch, []⟩).2.trace = successTrace
    ∧ (∀ k e, Event.stageFailed k e ∉ (LiStartConnection env ⟨STAGE_NONE, latch, []⟩).2.trace)
    ∧ ((∀ a, env.raised a = []) →
        (LiStartConnection env ⟨STAGE_NONE, latch, []⟩).2.trace = successTrace) := by
  have h1 := hok 1 (by decide) (by decide)
  have h2 := hok 2 (by decide) (by decide)
  have h3 := hok 3 (by decide) (by decide)
  have h4 := hok 4 (by decide) (by decide)
  have h8 := hok 8 (by decide) (by decide)
  have h9 := hok 9 (by decide) (by decide)
  have h10 := hok 10 (by decide) (by decide)
  have h11 := hok 11 (by decide) (by decide)
  simp [stageActionResult] at h1 h2 h3 h4 h8 h9 h10 h11
  have hview : withoutTerminations (LiStartConnection env ⟨STAGE_NONE, latch, []⟩).2.trace
      = successTrace := by
    simp [LiStartConnection, stageAbort, h1, h2, h3, h4, h8, h9, h10, h11, Event.isTermination,
      successTrace, stageActions]
  refine ⟨?_, hview, ?_, ?_⟩
  · simp [LiStartConnection, stageAbort, h1, h2, h3, h4, h8, h9, h10, h11]
  · intro k e
    rw [mem_withoutTerminations (by rfl), hview]
    simp [successTrace, stageActions]
  · intro hq
    have hcall : ∀ (a : Action) (st : Session), callExternal env a st = emit (Event.call a) st := by
      intro a st
      simp [callExternal, hq]
    obtain ⟨hg, hn⟩ := nameResolutionResult_eq_zero env h2
    simp [LiStartConnection, stageAbort, resolveHostName, hcall, stageDone, LC_ASSERT, emit,
      h1, hg, hn, h3, h4, h8, h9, h10, h11, successTrace, stageActions]

/-- In `quietEnv` every stage action succeeds. -/
theorem quietEnv_succeeds (k : Int) : stageActionResult quietEnv k = 0 := by
  simp [stageActionResult, nameResolutionResult, quietEnv]

/-- Witness for C4: the environment in which every entry point succeeds. -/
theorem LiStartConnection_all_succeed_witness :
    (LiStartConnection quietEnv ⟨STAGE_NONE, 0, []⟩).1 = 0
    ∧ withoutTerminations (LiStartConnection quietEnv ⟨STAGE_NONE, 0, []⟩).2.trace
        = successTrace :=
  ⟨(LiStartConnection_all_succeed quietEnv 0 (fun k _ _ => quietEnv_succeeds k)).1,
   (LiStartConnection_all_succeed quietEnv 0 (fun k _ _ => quietEnv_succeeds k)).2.1⟩

/-- Statements about stage notifications and external calls may be checked on the trace
without termination deliveries. -/
theorem first_failure_of_view (tr : List Event) (k e : Int)
    (h : (withoutTerminations tr).count (Event.stageFailed k e) = 1
      ∧ (∀ j c, Event.stageFailed j c ∈ withoutTerminations tr → j = k ∧ c = e)
      ∧ Event.stageComplete k ∉ withoutTerminations tr
      ∧ Event.connectionStarted ∉ withoutTerminations tr
      ∧ ∀ j : Int, k < j →
          Event.stageStarting j ∉ withoutTerminations tr
          ∧ ∀ a, (j, a) ∈ stageActions → Event.call a ∉ withoutTerminations tr) :
    tr.count (Event.stageFailed k e) = 1
      ∧ (∀ j c, Event.stageFailed j c ∈ tr → j = k ∧ c = e)
      ∧ Event.stageComplete k ∉ tr
      ∧ Event.connectionStarted ∉ tr
      ∧ ∀ j : Int, k < j →
          Event.stageStarting j ∉ tr ∧ ∀ a, (j, a) ∈ stageActions → Event.call a ∉ tr := by
  obtain ⟨h1, h2, h3, h4, h5⟩ := h
  refine ⟨?_, ?_, ?_, ?_, ?_⟩
  · rw [count_withoutTerminations (by rfl)]; exact h1
  · intro j c hm
    exact h2 j c ((mem_withoutTerminations (by rfl) tr).1 hm)
  · intro hm
    exact h3 ((mem_withoutTerminations (by rfl) tr).1 hm)
  · intro hm
    exact h4 ((mem_withoutTerminations (by rfl) tr).1 hm)
  · intro j hj
    refine ⟨?_, ?_⟩
    · intro hm
      exact (h5 j hj).1 ((mem_withoutTerminations (by rfl) tr).1 hm)
    · intro a ha hm
      exact (h5 j hj).2 a ha ((mem_withoutTerminations (by rfl) tr).1 hm)

/-- C3: in a run of `LiStartConnection` that begins at `STAGE_NONE`, if the action of stage
`k` is the first to fail and fails with the non-zero code `e` (the hypotheses exclude the
video, audio and input initialisation stages, whose actions return `void`), then
`LiStartConnection` returns exactly `e`, invokes `stageFailed(k, e)` exactly once and no
other `stageFailed`, never invokes `stageComplete(k)` or `connectionStarted()`, and invokes
neither `stageStarting` nor the stage action of any stage after `k`. -/
theorem LiStartConnection_first_failure (env : Env) (latch k e : Int)
    (hk1 : STAGE_PLATFORM_INIT ≤ k) (hk2 : k ≤ STAGE_INPUT_STREAM_START)
    (he : e ≠ 0) (hfail : stageActionResult env k = e)
    (hprev : ∀ j : Int, STAGE_PLATFORM_INIT ≤ j → j < k → stageActionResult env j = 0) :
    (LiStartConnection env ⟨STAGE_NONE, latch, []⟩).1 = e
    ∧ (LiStartConnection env ⟨STAGE_NONE, latch, []⟩).2.trace.count (Event.stageFailed k e) = 1
    ∧ (∀ j c, Event.stageFailed j c ∈ (LiStartConnection env ⟨STAGE_NONE, latch, []⟩).2.trace →
        j = k ∧ c = e)
    ∧ Event.stageComplete k ∉ (LiStartConnection env ⟨STAGE_NONE, latch, []⟩).2.trace
    ∧ Event.connectionStarted ∉ (LiStartConnection env ⟨STAGE_NONE, latch, []⟩).2.trace
    ∧ ∀ j : Int, k < j →
        Event.stageStarting j ∉ (LiStartConnection env ⟨STAGE_NONE, latch, []⟩).2.trace
        ∧ ∀ a, (j, a) ∈ stageActions →
            Event.call a ∉ (LiStartConnection env ⟨STAGE_NONE, latch, []⟩).2.trace := by
  have h1 := hprev 1 (by decide)
  have h2 := hprev 2 (by decide)
  have h3 := hprev 3 (by decide)
  have h4 := hprev 4 (by decide)
  have h8 := hprev 8 (by decide)
  have h9 := hprev 9 (by decide)
  have h10 := hprev 10 (by decide)
  simp only [STAGE_PLATFORM_INIT, STAGE_INPUT_STREAM_START] at hk1 hk2
  refine ⟨?_, first_failure_of_view _ k e ?_⟩
  · interval_cases k <;> simp [stageActionResult] at h1 h2 h3 h4 h8 h9 h10 hfail <;>
      first
      | exact absurd hfail.symm he
      | simp [LiStartConnection, stageAbort, *]
  · interval_cases k <;> simp [stageActionResult] at h1 h2 h3 h4 h8 h9 h10 hfail <;>
      first
      | exact absurd hfail.symm he
      | simp [LiStartConnection, stageAbort, Event.isTermination, stageActions, *]
    all_goals
      intro j hj
      simp only [STAGE_PLATFORM_INIT, STAGE_NAME_RESOLUTION, STAGE_RTSP_HANDSHAKE,
        STAGE_CONTROL_STREAM_INIT, STAGE_VIDEO_STREAM_INIT, STAGE_AUDIO_STREAM_INIT,
        STAGE_INPUT_STREAM_INIT, STAGE_CONTROL_STREAM_START, STAGE_VIDEO_STREAM_START,
        STAGE_AUDIO_STREAM_START, STAGE_INPUT_STREAM_START]
      refine ⟨by omega, ?_⟩
      intro a ha
      rcases ha with ⟨h, rfl⟩ | ⟨h, rfl⟩ | ⟨h, rfl⟩ | ⟨h, rfl⟩ | ⟨h, rfl⟩ | ⟨h, rfl⟩ | ⟨h, rfl⟩ |
        ⟨h, rfl⟩ | ⟨h, rfl⟩ | ⟨h, rfl⟩ | ⟨h, rfl⟩
      all_goals first
        | (exfalso; omega)
        | simp

/-- Witness for C3: every entry point succeeds except the resolver, which fails name
resolution (stage 2) with code -2. -/
theorem LiStartConnection_first_failure_witness :
    stageActionResult dnsFailureEnv STAGE_NAME_RESOLUTION = -2
    ∧ (LiStartConnection dnsFailureEnv ⟨STAGE_NONE, 0, []⟩).1 = -2
    ∧ (LiStartConnection dnsFailureEnv ⟨STAGE_NONE, 0, []⟩).2.trace.count
        (Event.stageFailed STAGE_NAME_RESOLUTION (-2)) = 1
    ∧ Event.stageComplete STAGE_NAME_RESOLUTION
        ∉ (LiStartConnection dnsFailureEnv ⟨STAGE_NONE, 0, []⟩).2.trace
    ∧ Event.connectionStarted ∉ (LiStartConnection dnsFailureEnv ⟨STAGE_NONE, 0, []⟩).2.trace :=
  have h := LiStartConnection_first_failure dnsFailureEnv 0 STAGE_NAME_RESOLUTION (-2)
    (by decide) (by decide) (by decide) (by decide)
    (fun j hj1 hj2 => by
      have hj : j = 1 := by
        simp only [STAGE_PLATFORM_INIT, STAGE_NAME_RESOLUTION] at hj1 hj2
        omega
      subst hj
      decide)
  ⟨by decide, h.1, h.2.1, h.2.2.2.1, h.2.2.2.2.1⟩

/-- With the latch set, an external call adds its call event and nothing else. -/
theorem callExternal_set (env : Env) (a : Action) (k : Int) (t : List Event) :
    callExternal env a ⟨k, 1, t⟩ = ⟨k, 1, t ++ [Event.call a]⟩ := by
  rw [callExternal_latched _ _ _ (by simp)]
  rfl

/-- The whole effect of `LiStopConnection` from a stage in `0..11`. -/
theorem stop_from_stage (env : Env) (s latch : Int) (tr : List Event)
    (h0 : STAGE_NONE ≤ s) (h1 : s ≤ STAGE_INPUT_STREAM_START) :
    LiStopConnection env ⟨s, latch, tr⟩ = ⟨STAGE_NONE, 1, tr ++ rollbackCalls s⟩ := by
  simp only [STAGE_NONE, STAGE_INPUT_STREAM_START] at h0 h1
  interval_cases s <;>
    simp [LiStopConnection, stopStep, callExternal_set, LC_ASSERT, rollbackCalls, stagesDownFrom,
      teardownOf, List.range_succ]

theorem rollbackCalls_nodup (s : Int) (h0 : 0 ≤ s) (h1 : s ≤ 11) : (rollbackCalls s).Nodup := by
  interval_cases s <;> decide

theorem rollbackCalls_no_assert (s : Int) (h0 : 0 ≤ s) (h1 : s ≤ 11) :
    Event.assertFailed ∉ rollbackCalls s := by
  interval_cases s <;> decide

theorem teardownOf_range (k : Int) (a : Action) (h : teardownOf k = some a) :
    1 ≤ k ∧ k ≤ 11 := by
  by_contra hcon
  have hnone : teardownOf k = none := by
    have e1 : k ≠ 1 := by omega
    have e3 : k ≠ 3 := by omega
    have e4 : k ≠ 4 := by omega
    have e5 : k ≠ 5 := by omega
    have e6 : k ≠ 6 := by omega
    have e7 : k ≠ 7 := by omega
    have e8 : k ≠ 8 := by omega
    have e9 : k ≠ 9 := by omega
    have e10 : k ≠ 10 := by omega
    have e11 : k ≠ 11 := by omega
    simp [teardownOf, e1, e3, e4, e5, e6, e7, e8, e9, e10, e11]
  rw [hnone] at h
  exact Option.noConfusion h

set_option maxHeartbeats 1000000 in
theorem rollbackCalls_above (s : Int) (h0 : 0 ≤ s) (h1 : s ≤ 11) (k : Int) (a : Action)
    (hk : s < k) (hsome : teardownOf k = some a) : Event.call a ∉ rollbackCalls s := by
  obtain ⟨hk1, hk2⟩ := teardownOf_range k a hsome
  interval_cases k <;> simp [teardownOf] at hsome <;> subst hsome <;>
    interval_cases s <;> decide

/-- C2: for every stage `s` from `STAGE_NONE` to `STAGE_INPUT_STREAM_START`,
`LiStopConnection` called with the stage counter at `s` adds to the trace exactly
`rollbackCalls s`, the teardown actions paired with the stages `s, s-1, ..., 1` in that
descending order (none for name resolution), each exactly once, none of them the teardown
action of a stage above `s`; it leaves the stage counter at `STAGE_NONE` and the final
`LC_ASSERT(stage == STAGE_NONE)` holds (no failed assertion is recorded). -/
theorem LiStopConnection_rollback (env : Env) (s latch : Int) (tr : List Event)
    (h0 : STAGE_NONE ≤ s) (h1 : s ≤ STAGE_INPUT_STREAM_START) :
    LiStopConnection env ⟨s, latch, tr⟩ = ⟨STAGE_NONE, 1, tr ++ rollbackCalls s⟩
    ∧ (rollbackCalls s).Nodup
    ∧ (∀ k a, s < k → teardownOf k = some a → Event.call a ∉ rollbackCalls s)
    ∧ Event.assertFailed ∉ rollbackCalls s :=
  ⟨stop_from_stage env s latch tr h0 h1, rollbackCalls_nodup s h0 h1,
    fun k a hk hsome => rollbackCalls_above s h0 h1 k a hk hsome,
    rollbackCalls_no_assert s h0 h1⟩

/-- Witness for C2: a stop at `STAGE_VIDEO_STREAM_START`, with a video subsystem that reports
a termination while it is being stopped. -/
theorem LiStopConnection_rollback_witness :
    STAGE_NONE ≤ STAGE_VIDEO_STREAM_START
    ∧ STAGE_VIDEO_STREAM_START ≤ STAGE_INPUT_STREAM_START
    ∧ LiStopConnection noisyTeardownEnv ⟨STAGE_VIDEO_STREAM_START, 0, []⟩
        = ⟨STAGE_NONE, 1, [] ++ rollbackCalls STAGE_VIDEO_STREAM_START⟩ :=
  ⟨by decide, by decide,
    (LiStopConnection_rollback noisyTeardownEnv STAGE_VIDEO_STREAM_START 0 []
      (by decide) (by decide)).1⟩

/-- C7: `LiStopConnection` called at `STAGE_NONE` adds nothing to the trace (it invokes no
teardown action) and leaves the stage at `STAGE_NONE`, the latch being set; and for every
starting stage from `STAGE_NONE` to `STAGE_INPUT_STREAM_START`, running it twice in a row
yields the same session (stage counter, latch and trace) as running it once, so the second
run invokes no teardown action. -/
theorem LiStopConnection_idempotent (env : Env) (s latch : Int) (tr : List Event)
    (h0 : STAGE_NONE ≤ s) (h1 : s ≤ STAGE_INPUT_STREAM_START) :
    LiStopConnection env ⟨STAGE_NONE, latch, tr⟩ = ⟨STAGE_NONE, 1, tr⟩
    ∧ LiStopConnection env (LiStopConnection env ⟨s, latch, tr⟩)
        = LiStopConnection env ⟨s, latch, tr⟩
    ∧ (LiStopConnection env (LiStopConnection env ⟨s, latch, tr⟩)).trace
        = (LiStopConnection env ⟨s, latch, tr⟩).trace := by
  have hnone : ∀ (l : Int) (t : List Event),
      LiStopConnection env ⟨STAGE_NONE, l, t⟩ = ⟨STAGE_NONE, 1, t⟩ := by
    intro l t
    rw [stop_from_stage env STAGE_NONE l t (le_refl _) (by decide)]
    simp [rollbackCalls, stagesDownFrom]
  have htwice : LiStopConnection env (LiStopConnection env ⟨s, latch, tr⟩)
      = LiStopConnection env ⟨s, latch, tr⟩ := by
    rw [stop_from_stage env s latch tr h0 h1, hnone]
  exact ⟨hnone latch tr, htwice, by rw [htwice]⟩

/-- Witness for C7: two stops in a row from the final stage. -/
theorem LiStopConnection_idempotent_witness :
    STAGE_NONE ≤ STAGE_INPUT_STREAM_START
    ∧ LiStopConnection quietEnv (LiStopConnection quietEnv ⟨STAGE_INPUT_STREAM_START, 0, []⟩)
        = LiStopConnection quietEnv ⟨STAGE_INPUT_STREAM_START, 0, []⟩ :=
  ⟨by decide,
    (LiStopConnection_idempotent quietEnv STAGE_INPUT_STREAM_START 0 []
      (by decide) (le_refl _)).2.1⟩

/-- Stage and return value of a start from `STAGE_NONE`, path by path. -/
theorem start_stage_cases (env : Env) (latch : Int) :
    ((LiStartConnection env ⟨STAGE_NONE, latch, []⟩).1 = 0
      ∧ (LiStartConnection env ⟨STAGE_NONE, latch, []⟩).2.stage = STAGE_INPUT_STREAM_START
      ∧ env.result Action.initializePlatform = 0)
    ∨ ((LiStartConnection env ⟨STAGE_NONE, latch, []⟩).1 ≠ 0
      ∧ STAGE_NONE ≤ (LiStartConnection env ⟨STAGE_NONE, latch, []⟩).2.stage
      ∧ (LiStartConnection env ⟨STAGE_NONE, latch, []⟩).2.stage < STAGE_INPUT_STREAM_START
      ∧ ((LiStartConnection env ⟨STAGE_NONE, latch, []⟩).2.stage = STAGE_NONE
          ↔ env.result Action.initializePlatform ≠ 0)
      ∧ Event.stageFailed ((LiStartConnection env ⟨STAGE_NONE, latch, []⟩).2.stage + 1)
          (LiStartConnection env ⟨STAGE_NONE, latch, []⟩).1
          ∈ withoutTerminations (LiStartConnection env ⟨STAGE_NONE, latch, []⟩).2.trace) := by
  simp only [LiStartConnection, stageAbort, resolveHostName_result]
  split_ifs <;> simp_all [Event.isTermination, STAGE_INPUT_STREAM_START, STAGE_NONE]

theorem start_no_teardown (env : Env) (latch : Int) (a : Action) (ha : a.isTeardown = true) :
    Event.call a ∉ withoutTerminations (LiStartConnection env ⟨STAGE_NONE, latch, []⟩).2.trace := by
  simp only [LiStartConnection, stageAbort, resolveHostName_result]
  split_ifs <;> simp [Event.isTermination] <;> cases a <;> simp [Action.isTeardown] at ha ⊢

/-- C1 (amended): for every combination of per-stage outcomes, when `LiStartConnection` is
called with the stage counter at `STAGE_NONE`, after it returns the stage counter equals
`STAGE_INPUT_STREAM_START` if and only if it returned 0. When it returns a failure code the
counter is left at the last completed stage, the one just below the stage whose
`stageFailed` was reported (so at `STAGE_NONE` only when platform initialisation itself
failed); `LiStartConnection` has called no teardown action, and a following
`LiStopConnection` brings the counter to `STAGE_NONE`. -/
theorem LiStartConnection_stage_after_return (env : Env) (latch : Int) :
    ((LiStartConnection env ⟨STAGE_NONE, latch, []⟩).2.stage = STAGE_INPUT_STREAM_START
      ↔ (LiStartConnection env ⟨STAGE_NONE, latch, []⟩).1 = 0)
    ∧ ((LiStartConnection env ⟨STAGE_NONE, latch, []⟩).1 ≠ 0 →
        STAGE_NONE ≤ (LiStartConnection env ⟨STAGE_NONE, latch, []⟩).2.stage
        ∧ (LiStartConnection env ⟨STAGE_NONE, latch, []⟩).2.stage < STAGE_INPUT_STREAM_START
        ∧ Event.stageFailed ((LiStartConnection env ⟨STAGE_NONE, latch, []⟩).2.stage + 1)
            (LiStartConnection env ⟨STAGE_NONE, latch, []⟩).1
            ∈ (LiStartConnection env ⟨STAGE_NONE, latch, []⟩).2.trace)
    ∧ ((LiStartConnection env ⟨STAGE_NONE, latch, []⟩).2.stage = STAGE_NONE
        ↔ env.result Action.initializePlatform ≠ 0)
    ∧ (∀ a : Action, a.isTeardown = true →
        Event.call a ∉ (LiStartConnection env ⟨STAGE_NONE, latch, []⟩).2.trace)
    ∧ (LiStopConnection env (LiStartConnection env ⟨STAGE_NONE, latch, []⟩).2).stage
        = STAGE_NONE := by
  have hteardown : ∀ a : Action, a.isTeardown = true →
      Event.call a ∉ (LiStartConnection env ⟨STAGE_NONE, latch, []⟩).2.trace := by
    intro a ha hm
    exact start_no_teardown env latch a ha ((mem_withoutTerminations (by rfl) _).1 hm)
  have hstop : ∀ st : Session, STAGE_NONE ≤ st.stage → st.stage ≤ STAGE_INPUT_STREAM_START →
      (LiStopConnection env st).stage = STAGE_NONE := by
    intro st h0 h1
    have h := stop_from_stage env st.stage st.alreadyTerminated st.trace h0 h1
    have hst : (⟨st.stage, st.alreadyTerminated, st.trace⟩ : Session) = st := rfl
    rw [hst] at h
    rw [h]
  rcases start_stage_cases env latch with ⟨hret, hstage, hinit⟩ | ⟨hret, hlo, hhi, hnone, hmem⟩
  · refine ⟨?_, ?_, ?_, hteardown, ?_⟩
    · exact ⟨fun _ => hret, fun _ => hstage⟩
    · intro hne
      exact absurd hret hne
    · rw [hstage]
      simp [hinit]
    · exact hstop _ (by rw [hstage]; decide) (by rw [hstage])
  · refine ⟨?_, ?_, hnone, hteardown, ?_⟩
    · constructor
      · intro h
        rw [h] at hhi
        exact absurd hhi (lt_irrefl _)
      · intro h
        exact absurd h hret
    · intro _
      exact ⟨hlo, hhi, (mem_withoutTerminations (by rfl) _).2 hmem⟩
    · exact hstop _ hlo (le_of_lt hhi)

/-- Witness for C1 (amended): a failed name resolution leaves the counter between
`STAGE_NONE` and the final stage, with `stageFailed` reported for the stage above it. -/
theorem LiStartConnection_stage_after_return_witness :
    (LiStartConnection dnsFailureEnv ⟨STAGE_NONE, 0, []⟩).1 ≠ 0
    ∧ STAGE_NONE ≤ (LiStartConnection dnsFailureEnv ⟨STAGE_NONE, 0, []⟩).2.stage
    ∧ (LiStartConnection dnsFailureEnv ⟨STAGE_NONE, 0, []⟩).2.stage < STAGE_INPUT_STREAM_START
    ∧ Event.stageFailed ((LiStartConnection dnsFailureEnv ⟨STAGE_NONE, 0, []⟩).2.stage + 1)
        (LiStartConnection dnsFailureEnv ⟨STAGE_NONE, 0, []⟩).1
        ∈ (LiStartConnection dnsFailureEnv ⟨STAGE_NONE, 0, []⟩).2.trace :=
  ⟨by decide, (LiStartConnection_stage_after_return dnsFailureEnv 0).2.1 (by decide)⟩

/-- C1, counterexample: with a successful platform initialisation and a resolver that fails
with code -2, `LiStartConnection` called at `STAGE_NONE` returns the failure code -2 and
leaves the stage counter at `STAGE_PLATFORM_INIT`, not at `STAGE_NONE`. -/
theorem LiStartConnection_failure_not_torn_down :
    (LiStartConnection dnsFailureEnv ⟨STAGE_NONE, 0, []⟩).1 = -2
    ∧ (LiStartConnection dnsFailureEnv ⟨STAGE_NONE, 0, []⟩).2.stage = STAGE_PLATFORM_INIT
    ∧ ¬ ((LiStartConnection dnsFailureEnv ⟨STAGE_NONE, 0, []⟩).2.stage = STAGE_NONE
          ↔ (LiStartConnection dnsFailureEnv ⟨STAGE_NONE, 0, []⟩).1 ≠ 0) := by
  decide

@[simp]
theorem deliveries_append (xs ys : List Event) :
    deliveries (xs ++ ys) = deliveries xs ++ deliveries ys := by
  simp [deliveries, List.filterMap_append]

theorem Latched.wrapper {d : List Int} {st : Session} (h : Latched d st) (c : Int) :
    ClInternalConnectionTerminated c st = st :=
  ClInternalConnectionTerminated_latched c st (by rw [h.1]; decide)

theorem Latched.callExternal {d : List Int} {st : Session} (h : Latched d st) (env : Env)
    (a : Action) : Latched d (callExternal env a st) := by
  rw [callExternal_latched env a st (by rw [h.1]; decide)]
  refine ⟨h.1, ?_⟩
  simp [deliveries_append, h.2]
  rfl

theorem Latched.stopStep {d : List Int} {st : Session} (h : Latched d st) (env : Env) (s : Int)
    (teardown : Option Action) : Latched d (stopStep env s teardown st) := by
  unfold Connection.stopStep
  split
  · cases teardown with
    | none => exact h
    | some a => exact Latched.callExternal h env a
  · exact h

theorem Latched.LC_ASSERT {d : List Int} {st : Session} (h : Latched d st) (x : Bool) :
    Latched d (LC_ASSERT x st) := by
  unfold Connection.LC_ASSERT
  split
  · exact h
  · refine ⟨h.1, ?_⟩
    simp [deliveries_append, h.2]
    rfl

/-- Whatever the stage and the latch on entry, `LiStopConnection` returns with the latch set
and without a delivery to the original callback. -/
theorem LiStopConnection_latched (env : Env) (st : Session) :
    Latched (deliveries st.trace) (LiStopConnection env st) := by
  have h0 : Latched (deliveries st.trace) { st with alreadyTerminated := 1 } := ⟨rfl, rfl⟩
  unfold LiStopConnection
  exact ((((((((((((h0.stopStep env _ _).stopStep env _ _).stopStep env _ _).stopStep env _ _).stopStep
    env _ _).stopStep env _ _).stopStep env _ _).stopStep env _ _).stopStep env _ _).stopStep
    env _ _).stopStep env _ _).LC_ASSERT _)

theorem Latched.runOp {d : List Int} {st : Session} (h : Latched d st) (env : Env) (o : Op) :
    Latched d (runOp env o st) := by
  cases o with
  | terminated c =>
    show Latched d (ClInternalConnectionTerminated c st)
    rw [h.wrapper c]
    exact h
  | stop =>
    show Latched d (LiStopConnection env st)
    have h2 := LiStopConnection_latched env st
    rw [h.2] at h2
    exact h2

theorem Latched.runOps {d : List Int} {st : Session} (h : Latched d st) (env : Env)
    (ops : List Op) : Latched d (runOps env ops st) := by
  induction ops generalizing st with
  | nil => exact h
  | cons o rest ih => exact ih (h.runOp env o)

/-- The deliveries of a whole session, as a function of its first call. -/
theorem session_deliveries (env : Env) (stage : Int) (ops : List Op) :
    deliveries (runOps env ops ⟨stage, 0, []⟩).trace
      = match ops with
        | Op.terminated c :: _ => [c]
        | _ => [] := by
  cases ops with
  | nil => rfl
  | cons o rest =>
    cases o with
    | terminated c =>
      have h1 : Latched [c] (runOp env (Op.terminated c) ⟨stage, 0, []⟩) := ⟨rfl, rfl⟩
      exact (h1.runOps env rest).2
    | stop =>
      have h1 : Latched [] (runOp env Op.stop ⟨stage, 0, []⟩) :=
        LiStopConnection_latched env ⟨stage, 0, []⟩
      exact (h1.runOps env rest).2

/-- C5: within one session, which begins with the latch at 0, for every finite sequence of
calls of the installed wrapper `ClInternalConnectionTerminated` (with arbitrary error codes)
and of `LiStopConnection`, in any order and at any stage, the caller's original
`connectionTerminated` callback is invoked at most once, and an invocation carries the error
code of the first wrapper call: the callback is invoked exactly when the session's first
call is a wrapper call, with that call's code, and never when it is `LiStopConnection`. -/
theorem termination_delivered_at_most_once (env : Env) (stage : Int) (ops : List Op) :
    (deliveries (runOps env ops ⟨stage, 0, []⟩).trace).length ≤ 1
    ∧ (∀ c ∈ deliveries (runOps env ops ⟨stage, 0, []⟩).trace, firstTerminationCode ops = some c)
    ∧ (∀ c rest, ops = Op.terminated c :: rest →
        deliveries (runOps env ops ⟨stage, 0, []⟩).trace = [c])
    ∧ (∀ rest, ops = Op.stop :: rest → deliveries (runOps env ops ⟨stage, 0, []⟩).trace = []) := by
  rw [session_deliveries]
  cases ops with
  | nil => simp
  | cons o rest =>
    cases o with
    | terminated c => simp [firstTerminationCode]
    | stop => simp

/-- Witness for C5: a termination report with code 5, a stop from the final stage during
which the video subsystem reports code 7, and a further report with code 6 deliver code 5
and nothing else. -/
theorem termination_delivered_at_most_once_witness :
    deliveries (runOps noisyTeardownEnv [Op.terminated 5, Op.stop, Op.terminated 6]
      ⟨STAGE_INPUT_STREAM_START, 0, []⟩).trace = [5] :=
  (termination_delivered_at_most_once noisyTeardownEnv STAGE_INPUT_STREAM_START
    [Op.terminated 5, Op.stop, Op.terminated 6]).2.2.1 5 [Op.stop, Op.terminated 6] rfl

/-- C6: `LiStopConnection` sets the termination latch before it invokes any teardown
action, so whatever the stage, the latch and the trace on entry, it returns with the latch
set and without having invoked the caller's original `connectionTerminated` callback, also
for the reports a subsystem raises while its teardown action runs (`Env.raised`); and no
sequence of later wrapper calls and stops invokes the callback either. -/
theorem no_delivery_after_stop (env : Env) (st : Session) (ops : List Op) :
    (LiStopConnection env st).alreadyTerminated = 1
    ∧ deliveries (LiStopConnection env st).trace = deliveries st.trace
    ∧ deliveries (runOps env ops (LiStopConnection env st)).trace = deliveries st.trace :=
  ⟨(LiStopConnection_latched env st).1, (LiStopConnection_latched env st).2,
    ((LiStopConnection_latched env st).runOps env ops).2⟩

end Connection

/-! ## Theorems about `PlatformSockets.c` -/

namespace PlatformSockets

theorem byteAt_lt (bytes : List Nat) (i : Nat) : byteAt bytes i < 256 :=
  Nat.mod_lt _ (by decide)

/-- Copying the address bytes and applying `htonl` gives their network-order value on
either endianness. -/
theorem htonl_loadU32 (littleEndian : Bool) (bytes : List Nat) :
    htonl littleEndian (loadU32 littleEndian bytes) = ipv4Value bytes := by
  have h0 := byteAt_lt bytes 0
  have h1 := byteAt_lt bytes 1
  have h2 := byteAt_lt bytes 2
  have h3 := byteAt_lt bytes 3
  cases littleEndian <;> simp only [htonl, loadU32, ipv4Value, if_true, if_false,
    Bool.false_eq_true] <;> omega

theorem ipv4Value_lt (bytes : List Nat) : ipv4Value bytes < 2 ^ 32 := by
  have h0 := byteAt_lt bytes 0
  have h1 := byteAt_lt bytes 1
  have h2 := byteAt_lt bytes 2
  have h3 := byteAt_lt bytes 3
  simp only [ipv4Value]
  omega

/-- Masking with the top `w` bits of a `k + w` bit value clears the low `k` bits. -/
theorem and_high_mask (x w k : Nat) (hx : x < 2 ^ (k + w)) :
    x &&& ((2 ^ w - 1) <<< k) = x / 2 ^ k * 2 ^ k := by
  apply Nat.eq_of_testBit_eq
  intro i
  rw [← Nat.shiftRight_eq_div_pow, ← Nat.shiftLeft_eq]
  simp only [Nat.testBit_and, Nat.testBit_shiftLeft, Nat.testBit_two_pow_sub_one,
    Nat.testBit_shiftRight]
  by_cases hik : k ≤ i
  · by_cases hiw : i - k < w
    · simp [hik, hiw]
    · have hlt : x.testBit i = false := by
        apply Nat.testBit_lt_two_pow
        exact lt_of_lt_of_le hx (Nat.pow_le_pow_right (by decide) (by omega))
      have hki : k + (i - k) = i := by omega
      simp [hik, hiw, hlt, hki]
  · simp [hik]

theorem mask8 (x : Nat) (hx : x < 2 ^ 32) :
    x &&& 0xFF000000 = 0x0A000000 ↔ inSubnetV4 x 0x0A000000 8 := by
  have h := and_high_mask x 8 24 hx
  rw [show ((2 ^ 8 - 1) <<< 24 : Nat) = 0xFF000000 from by decide] at h
  rw [h]
  simp only [inSubnetV4]
  omega

theorem mask12 (x : Nat) (hx : x < 2 ^ 32) :
    x &&& 0xFFF00000 = 0xAC100000 ↔ inSubnetV4 x 0xAC100000 12 := by
  have h := and_high_mask x 12 20 hx
  rw [show ((2 ^ 12 - 1) <<< 20 : Nat) = 0xFFF00000 from by decide] at h
  rw [h]
  simp only [inSubnetV4]
  omega

theorem mask16 (x net : Nat) (hx : x < 2 ^ 32) (hnet : net % 2 ^ 16 = 0) :
    x &&& 0xFFFF0000 = net ↔ inSubnetV4 x net 16 := by
  have h := and_high_mask x 16 16 hx
  rw [show ((2 ^ 16 - 1) <<< 16 : Nat) = 0xFFFF0000 from by decide] at h
  rw [h]
  simp only [inSubnetV4]
  omega

/-- C9: for every address whose family is not `AF_INET6`, on a host of either endianness,
`isPrivateNetworkAddress` returns 1 if and only if the family is `AF_INET` and the 32-bit
address (its four bytes read in network order) lies in 10.0.0.0/8, 172.16.0.0/12,
192.168.0.0/16 or 169.254.0.0/16, and returns 0 otherwise; 10.1.2.3, 172.16.0.1,
192.168.1.1 and 169.254.1.1 are private and 8.8.8.8 is not. -/
theorem isPrivateNetworkAddress_not_ipv6 (littleEndian : Bool) (address : SockaddrStorage)
    (hfam : address.ss_family ≠ AF_INET6) :
    (isPrivateNetworkAddress littleEndian address = 1
      ↔ address.ss_family = AF_INET ∧ inPrivateRangeV4 (ipv4Value address.sin_addr))
    ∧ (isPrivateNetworkAddress littleEndian address = 1
        ∨ isPrivateNetworkAddress littleEndian address = 0)
    ∧ isPrivateNetworkAddress littleEndian (ipv4 10 1 2 3) = 1
    ∧ isPrivateNetworkAddress littleEndian (ipv4 172 16 0 1) = 1
    ∧ isPrivateNetworkAddress littleEndian (ipv4 192 168 1 1) = 1
    ∧ isPrivateNetworkAddress littleEndian (ipv4 169 254 1 1) = 1
    ∧ isPrivateNetworkAddress littleEndian (ipv4 8 8 8 8) = 0 := by
  have hlt := ipv4Value_lt address.sin_addr
  refine ⟨?_, ?_, ?_⟩
  · by_cases h4 : address.ss_family = AF_INET
    · simp only [isPrivateNetworkAddress, h4, if_true, htonl_loadU32, true_and, inPrivateRangeV4,
        ← mask8 _ hlt, ← mask12 _ hlt, ← mask16 _ 0xC0A80000 hlt (by decide),
        ← mask16 _ 0xA9FE0000 hlt (by decide)]
      split_ifs <;> simp [*]
    · simp [isPrivateNetworkAddress, h4, hfam]
  · simp only [isPrivateNetworkAddress]
    split_ifs <;> simp
  · cases littleEndian <;> decide

/-- Witness for C9: the address 10.1.2.3 on a little-endian host. -/
theorem isPrivateNetworkAddress_not_ipv6_witness :
    (ipv4 10 1 2 3).ss_family ≠ AF_INET6
    ∧ (isPrivateNetworkAddress true (ipv4 10 1 2 3) = 1
        ↔ (ipv4 10 1 2 3).ss_family = AF_INET
          ∧ inPrivateRangeV4 (ipv4Value (ipv4 10 1 2 3).sin_addr)) :=
  ⟨by decide, (isPrivateNetworkAddress_not_ipv6 true (ipv4 10 1 2 3) (by decide)).1⟩

/-- C8, the code at a failing input: `isInSubnetV6` tests bit `i` of the prefix with the
mask `1 << (i % 8)`, which counts from the least significant bit of each byte. The address
fd00::1 lies in fc00::/7 and fe81::1 lies in fe80::/10, and both are classified as not
private; 7c00::1 lies in none of the three ranges and is classified as private. The three
addresses the specification names (fe80::1, fc00::1, 2001:4860::1) are classified as it
says. -/
theorem isPrivateNetworkAddress_ipv6_bit_order :
    -- fd00::1 lies in fc00::/7 and is classified as not private
    inPrivateRangeV6 [0xfd, 0, 0, 0, 0, 0, 0, 0, 0, 0, 0, 0, 0, 0, 0, 1] = true
    ∧ prefixMatches [0xfd, 0, 0, 0, 0, 0, 0, 0, 0, 0, 0, 0, 0, 0, 0, 1] uniqueLocalPrefix 7 = true
    ∧ isInSubnetV6 [0xfd, 0, 0, 0, 0, 0, 0, 0, 0, 0, 0, 0, 0, 0, 0, 1] uniqueLocalPrefix 7 = 0
    ∧ (∀ littleEndian, isPrivateNetworkAddress littleEndian
        (ipv6 [0xfd, 0, 0, 0, 0, 0, 0, 0, 0, 0, 0, 0, 0, 0, 0, 1]) = 0)
    -- fe81::1 lies in fe80::/10 and is classified as not private
    ∧ inPrivateRangeV6 [0xfe, 0x81, 0, 0, 0, 0, 0, 0, 0, 0, 0, 0, 0, 0, 0, 1] = true
    ∧ (∀ littleEndian, isPrivateNetworkAddress littleEndian
        (ipv6 [0xfe, 0x81, 0, 0, 0, 0, 0, 0, 0, 0, 0, 0, 0, 0, 0, 1]) = 0)
    -- 7c00::1 lies in none of the three ranges and is classified as private
    ∧ inPrivateRangeV6 [0x7c, 0, 0, 0, 0, 0, 0, 0, 0, 0, 0, 0, 0, 0, 0, 1] = false
    ∧ (∀ littleEndian, isPrivateNetworkAddress littleEndian
        (ipv6 [0x7c, 0, 0, 0, 0, 0, 0, 0, 0, 0, 0, 0, 0, 0, 0, 1]) = 1)
    -- the three addresses named by the specification are classified as it says
    ∧ (∀ littleEndian, isPrivateNetworkAddress littleEndian
        (ipv6 [0xfe, 0x80, 0, 0, 0, 0, 0, 0, 0, 0, 0, 0, 0, 0, 0, 1]) = 1)
    ∧ (∀ littleEndian, isPrivateNetworkAddress littleEndian
        (ipv6 [0xfc, 0, 0, 0, 0, 0, 0, 0, 0, 0, 0, 0, 0, 0, 0, 1]) = 1)
    ∧ (∀ littleEndian, isPrivateNetworkAddress littleEndian
        (ipv6 [0x20, 0x01, 0x48, 0x60, 0, 0, 0, 0, 0, 0, 0, 0, 0, 0, 0, 1]) = 0) := by
  decide

theorem chunkCount_cast (size : Int) (hsize : 0 ≤ size) :
    ((chunkCount size : Nat) : Int) = (size + 535) / 536 := by
  unfold chunkCount
  omega

/-- The loop from the `m`-th slice on, when no `send` fails. -/
theorem loop_all_sent (sendResult : Nat → Int) (size : Int) (hsize : 0 ≤ size)
    (hok : ∀ j, 0 ≤ sendResult j) :
    ∀ (d m : Nat) (calls : List (Int × Int)), m + d = chunkCount size → calls.length = m →
      sendMtuSafeLoop sendResult size (min (536 * (m : Int)) size) calls
        = (size, calls ++ (List.range' m d).map (chunk size)) := by
  have hN := chunkCount_cast size hsize
  intro d
  induction d with
  | zero =>
    intro m calls hm _
    have hmin : min (536 * (m : Int)) size = size := by
      have : (m : Int) = (chunkCount size : Nat) := by omega
      omega
    rw [hmin, sendMtuSafeLoop]
    simp
  | succ d ih =>
    intro m calls hm hlen
    have hlt : 536 * (m : Int) < size := by
      have : (m : Int) + 1 ≤ (chunkCount size : Nat) := by omega
      omega
    have hmin : min (536 * (m : Int)) size = 536 * (m : Int) := by omega
    have hnext : 536 * (m : Int)
        + (if size - 536 * (m : Int) > TCPv4_MSS then TCPv4_MSS else size - 536 * (m : Int))
        = min (536 * ((m + 1 : Nat) : Int)) size := by
      simp only [TCPv4_MSS]
      split <;> push_cast <;> omega
    have hchunk : (536 * (m : Int),
        (if size - 536 * (m : Int) > TCPv4_MSS then TCPv4_MSS else size - 536 * (m : Int)))
        = chunk size m := by
      simp only [TCPv4_MSS, chunk]
      split <;> congr 1 <;> omega
    rw [hmin, sendMtuSafeLoop]
    simp only [hlt, dite_true, not_lt.mpr (hok _), if_false]
    rw [hnext, hchunk, ih (m + 1) _ (by omega) (by simp [hlen])]
    simp [List.range'_succ]

/-- The lengths of the slices from the `m`-th on add up to what is left of the buffer. -/
theorem chunk_lengths_sum (size : Int) (hsize : 0 ≤ size) :
    ∀ (d m : Nat), m + d = chunkCount size →
      (((List.range' m d).map (chunk size)).map Prod.snd).sum
        = size - min (536 * (m : Int)) size := by
  have hN := chunkCount_cast size hsize
  intro d
  induction d with
  | zero =>
    intro m hm
    have : (m : Int) = (chunkCount size : Nat) := by omega
    simp
    omega
  | succ d ih =>
    intro m hm
    have hlt : 536 * (m : Int) < size := by
      have : (m : Int) + 1 ≤ (chunkCount size : Nat) := by omega
      omega
    have h := ih (m + 1) (by omega)
    simp only [List.range'_succ, List.map_cons, List.sum_cons, h, chunk]
    push_cast
    omega

theorem expectedSlices_get (size : Int) (i : Nat) (o l : Int)
    (h : (expectedSlices size)[i]? = some (o, l)) :
    i < chunkCount size ∧ o = 536 * (i : Int) ∧ l = min 536 (size - 536 * (i : Int)) := by
  simp only [expectedSlices, List.getElem?_map, List.getElem?_range, Option.map_eq_some'] at h
  obtain ⟨j, hj, hc⟩ := h
  by_cases hi : i < chunkCount size
  · rw [List.getElem?_range hi] at hj
    cases hj
    simp only [chunk, Prod.mk.injEq] at hc
    exact ⟨hi, hc.1.symm, hc.2.symm⟩
  · rw [List.getElem?_eq_none (by simpa using hi)] at hj
    cases hj

/-- C10: for every `size >= 0`, when no underlying `send` reports failure, `sendMtuSafe`
returns `size` and issues exactly `ceil(size / 536)` sends, the `i`-th (from 0) at offset
`536 * i`: consecutive, non-overlapping slices in increasing offset order starting at
offset 0, each of length between 1 and 536 and ending inside the buffer, every slice but the
last of length exactly 536, the lengths summing exactly to `size`. -/
theorem sendMtuSafe_all_sent (sendResult : Nat → Int) (size : Int) (hsize : 0 ≤ size)
    (hok : ∀ j, 0 ≤ sendResult j) :
    (sendMtuSafe sendResult size).1 = size
    ∧ (sendMtuSafe sendResult size).2 = expectedSlices size
    ∧ ((sendMtuSafe sendResult size).2.length : Int) = (size + 535) / 536
    ∧ ((sendMtuSafe sendResult size).2.map Prod.snd).sum = size
    ∧ (∀ (i : Nat) (o l : Int), (sendMtuSafe sendResult size).2[i]? = some (o, l) →
        o = 536 * (i : Int) ∧ 1 ≤ l ∧ l ≤ 536 ∧ o + l ≤ size
        ∧ (i + 1 < (sendMtuSafe sendResult size).2.length → l = 536))
    ∧ (∀ (i : Nat) (o l o2 l2 : Int), (sendMtuSafe sendResult size).2[i]? = some (o, l) →
        (sendMtuSafe sendResult size).2[i + 1]? = some (o2, l2) → o2 = o + l) := by
  have hN := chunkCount_cast size hsize
  have hrun : sendMtuSafe sendResult size = (size, expectedSlices size) := by
    have h := loop_all_sent sendResult size hsize hok (chunkCount size) 0 [] (by simp) rfl
    have hmin : min (536 * ((0 : Nat) : Int)) size = 0 := by
      simp only [Nat.cast_zero, mul_zero]
      omega
    rw [hmin] at h
    simp only [sendMtuSafe, h, expectedSlices, List.nil_append, List.range_eq_range']
  have hlen : (expectedSlices size).length = chunkCount size := by
    simp [expectedSlices]
  have hsum : ((expectedSlices size).map Prod.snd).sum = size := by
    have h := chunk_lengths_sum size hsize (chunkCount size) 0 (by simp)
    have hmin : min (536 * ((0 : Nat) : Int)) size = 0 := by
      simp only [Nat.cast_zero, mul_zero]
      omega
    rw [hmin] at h
    simp only [expectedSlices, List.range_eq_range', h, sub_zero]
  rw [hrun]
  refine ⟨rfl, rfl, ?_, hsum, ?_, ?_⟩
  · simp only [hlen]
    exact hN
  · intro i o l h
    obtain ⟨hi, ho, hl⟩ := expectedSlices_get size i o l h
    have hi2 : (i : Int) + 1 ≤ (chunkCount size : Nat) := by omega
    simp only [hlen]
    refine ⟨ho, by omega, by omega, by omega, ?_⟩
    intro hnext
    have hi3 : (i : Int) + 2 ≤ (chunkCount size : Nat) := by omega
    omega
  · intro i o l o2 l2 h h2
    obtain ⟨_, ho, hl⟩ := expectedSlices_get size i o l h
    obtain ⟨hi2, ho2, _⟩ := expectedSlices_get size (i + 1) o2 l2 h2
    have hi3 : (i : Int) + 2 ≤ (chunkCount size : Nat) := by omega
    push_cast at ho2
    omega

/-- Witness for C10: a buffer of 1500 bytes goes out as slices of 536, 536 and 428 bytes. -/
theorem sendMtuSafe_all_sent_witness :
    (0 : Int) ≤ 1500
    ∧ sendMtuSafe (fun _ => 536) 1500 = (1500, [(0, 536), (536, 536), (1072, 428)]) :=
  have h := sendMtuSafe_all_sent (fun _ => 536) 1500 (by decide)
    (fun _ => (by decide : (0 : Int) ≤ 536))
  ⟨by decide, Prod.ext h.1 (h.2.1.trans (by decide))⟩

/-- The loop from the `m`-th send on, when the send number `m + d` is the first to fail. -/
theorem loop_first_failure (sendResult : Nat → Int) (size : Int) (f : Nat)
    (hf : f < chunkCount size) (hprev : ∀ i, i < f → 0 ≤ sendResult i)
    (hfail : sendResult f < 0) :
    ∀ (d m : Nat) (calls : List (Int × Int)), m + d = f → calls.length = m →
      sendMtuSafeLoop sendResult size (536 * (m : Int)) calls
        = (-1, calls ++ (List.range' m (d + 1)).map (chunk size)) := by
  have hsize : 0 ≤ size := by
    by_contra hneg
    have : chunkCount size = 0 := by
      unfold chunkCount
      omega
    omega
  have hN := chunkCount_cast size hsize
  intro d
  induction d with
  | zero =>
    intro m calls hm hlen
    have hmf : m = f := by omega
    have hlt : 536 * (m : Int) < size := by
      have : (m : Int) + 1 ≤ (chunkCount size : Nat) := by omega
      omega
    have hchunk : (536 * (m : Int),
        (if size - 536 * (m : Int) > TCPv4_MSS then TCPv4_MSS else size - 536 * (m : Int)))
        = chunk size m := by
      simp only [TCPv4_MSS, chunk]
      split <;> congr 1 <;> omega
    rw [sendMtuSafeLoop]
    simp only [hlt, dite_true, hlen, hmf ▸ hfail, if_true]
    rw [hchunk]
    simp [List.range'_succ]
  | succ d ih =>
    intro m calls hm hlen
    have hlt : 536 * (m : Int) < size := by
      have : (m : Int) + 1 ≤ (chunkCount size : Nat) := by omega
      omega
    have hnext : 536 * (m : Int)
        + (if size - 536 * (m : Int) > TCPv4_MSS then TCPv4_MSS else size - 536 * (m : Int))
        = 536 * ((m + 1 : Nat) : Int) := by
      have : (m : Int) + 2 ≤ (chunkCount size : Nat) := by omega
      simp only [TCPv4_MSS]
      split <;> push_cast <;> omega
    have hchunk : (536 * (m : Int),
        (if size - 536 * (m : Int) > TCPv4_MSS then TCPv4_MSS else size - 536 * (m : Int)))
        = chunk size m := by
      simp only [TCPv4_MSS, chunk]
      split <;> congr 1 <;> omega
    have hokm : ¬ sendResult m < 0 := not_lt.mpr (hprev m (by omega))
    rw [sendMtuSafeLoop]
    simp only [hlt, dite_true, hlen, hokm, if_false]
    rw [hnext, hchunk, ih (m + 1) _ (by omega) (by simp [hlen])]
    simp [List.range'_succ]

/-- A non-negative result of the loop means that no `send` it issued returned a negative
value. -/
theorem loop_nonneg_no_failure (sendResult : Nat → Int) (size : Int) :
    ∀ (n : Nat) (bytesSent : Int) (calls : List (Int × Int)),
      (size - bytesSent).toNat ≤ n →
      (∀ i, i < calls.length → 0 ≤ sendResult i) →
      0 ≤ (sendMtuSafeLoop sendResult size bytesSent calls).1 →
      ∀ i, i < (sendMtuSafeLoop sendResult size bytesSent calls).2.length → 0 ≤ sendResult i := by
  intro n
  induction n with
  | zero =>
    intro bytesSent calls hn hcalls _
    have hge : ¬ bytesSent < size := by omega
    rw [sendMtuSafeLoop]
    simpa only [hge, dite_false] using hcalls
  | succ n ih =>
    intro bytesSent calls hn hcalls hret
    rw [sendMtuSafeLoop] at hret ⊢
    by_cases hlt : bytesSent < size
    · simp only [hlt, dite_true] at hret ⊢
      by_cases hneg : sendResult calls.length < 0
      · simp only [hneg, if_true] at hret
        exact absurd hret (by decide)
      · simp only [hneg, if_false] at hret ⊢
        refine ih _ _ ?_ ?_ hret
        · simp only [TCPv4_MSS]
          split <;> omega
        · intro i hi
          simp only [List.length_append, List.length_singleton] at hi
          by_cases hic : i < calls.length
          · exact hcalls i hic
          · have : i = calls.length := by omega
            rw [this]
            exact not_lt.mp hneg
    · simpa only [hlt, dite_false] using hcalls

/-- C11: if the send number `f` (counted from 0, so the `f + 1`-th send) is issued and is
the first whose result is negative, `sendMtuSafe` returns -1 at once: it has issued exactly
`f + 1` sends, the first `f + 1` slices of the buffer, and none after the failing one,
whatever the earlier sends transmitted. And whenever `sendMtuSafe` returns a non-negative
value, none of the sends it issued returned a negative value. -/
theorem sendMtuSafe_first_failure (sendResult : Nat → Int) (size : Int) :
    (∀ f : Nat, f < chunkCount size → (∀ i, i < f → 0 ≤ sendResult i) → sendResult f < 0 →
      (sendMtuSafe sendResult size).1 = -1
      ∧ (sendMtuSafe sendResult size).2 = (expectedSlices size).take (f + 1)
      ∧ (sendMtuSafe sendResult size).2.length = f + 1)
    ∧ (0 ≤ (sendMtuSafe sendResult size).1 →
        ∀ i, i < (sendMtuSafe sendResult size).2.length → 0 ≤ sendResult i) := by
  refine ⟨?_, ?_⟩
  · intro f hf hprev hfail
    have h := loop_first_failure sendResult size f hf hprev hfail f 0 [] (by simp) rfl
    simp only [Nat.cast_zero, mul_zero, List.nil_append] at h
    have htake : (expectedSlices size).take (f + 1) = (List.range' 0 (f + 1)).map (chunk size) := by
      have hmin : min (f + 1) (chunkCount size) = f + 1 := by omega
      rw [expectedSlices, ← List.map_take, List.take_range, hmin, List.range_eq_range']
    simp only [sendMtuSafe, h, htake]
    simp
  · intro hret
    exact loop_nonneg_no_failure sendResult size _ 0 [] (le_refl _) (by simp) hret

/-- Witness for C11: of the three sends a buffer of 1500 bytes needs, the second fails. -/
theorem sendMtuSafe_first_failure_witness :
    sendMtuSafe (fun j => if j = 1 then -1 else 536) 1500 = (-1, [(0, 536), (536, 536)]) :=
  have h := (sendMtuSafe_first_failure (fun j => if j = 1 then -1 else 536) 1500).1 1
    (by decide) (fun i hi => by
      have hi0 : i = 0 := by omega
      subst hi0
      decide) (by decide)
  Prod.ext h.1 (h.2.1.trans (by decide))

/-- C14: in `connectTcpSocket`, once the socket exists and the `connect` call has either
succeeded or reported that it is in progress: if the poll times out (`pollSockets` returns
0) the function returns `INVALID_SOCKET` with the last socket error set to `ETIMEDOUT`,
whatever `SO_ERROR` or `revents` would report; and if the poll signals the socket and
`SO_ERROR` reports a non-zero code `e`, the function returns `INVALID_SOCKET` with the last
socket error set to exactly `e`. -/
theorem connectTcpSocket_timeout_and_refusal (P : Platform) (env : ConnectEnv)
    (port timeoutSec s : Int) (hsock : env.socket = some s)
    (hpoll : 0 ≤ env.connectRet ∨ env.connectError = P.EWOULDBLOCK
      ∨ env.connectError = P.EAGAIN ∨ env.connectError = P.EINPROGRESS) :
    (env.pollRet = 0 →
      (connectTcpSocket P env port timeoutSec).sock = none
      ∧ (connectTcpSocket P env port timeoutSec).lastSocketError = some P.ETIMEDOUT)
    ∧ (∀ e : Int, 0 < env.pollRet → env.soError = some e → e ≠ 0 →
      (connectTcpSocket P env port timeoutSec).sock = none
      ∧ (connectTcpSocket P env port timeoutSec).lastSocketError = some e) := by
  have hgo : ¬ (env.connectRet < 0
      ∧ (if env.connectRet < 0 then env.connectError else env.connectRet) ≠ P.EWOULDBLOCK
      ∧ (if env.connectRet < 0 then env.connectError else env.connectRet) ≠ P.EAGAIN
      ∧ (if env.connectRet < 0 then env.connectError else env.connectRet) ≠ P.EINPROGRESS) := by
    rintro ⟨hneg, h1, h2, h3⟩
    simp only [hneg, if_true] at h1 h2 h3
    rcases hpoll with h | h | h | h
    · omega
    · exact h1 h
    · exact h2 h
    · exact h3 h
  refine ⟨?_, ?_⟩
  · intro h0
    simp only [connectTcpSocket, createSocket, hsock]
    simp [hgo, h0]
  · intro e hpos hso he
    have hn : ¬ env.pollRet < 0 := by omega
    have hz : ¬ env.pollRet = 0 := by omega
    simp only [connectTcpSocket, createSocket, hsock]
    simp [hgo, hn, hz, hso, he, connectExit]

/-- Witness for C14: a peer that never answers, probed on a platform with the Linux error
numbers. -/
theorem connectTcpSocket_timeout_and_refusal_witness :
    silentNet.socket = some 5
    ∧ (connectTcpSocket linuxPlatform silentNet 47989 3).sock = none
    ∧ (connectTcpSocket linuxPlatform silentNet 47989 3).lastSocketError = some 110 :=
  ⟨rfl, (connectTcpSocket_timeout_and_refusal linuxPlatform silentNet 47989 3 5 rfl
    (Or.inr (Or.inr (Or.inr rfl)))).1 rfl⟩

/-- C17, the code at a failing input: when the poll signals the socket and `SO_ERROR`
reports `ECONNREFUSED`, `connectTcpSocket` calls `setSocketNonBlocking(s, 0)`, then closes
the socket and returns `INVALID_SOCKET`. On the other failing paths (poll timeout, a
`connect` error that is not in-progress) the call is not made; on success it is. -/
theorem connectTcpSocket_clears_nonblocking_on_refusal :
    (connectTcpSocket linuxPlatform refusingNet 47989 3).sock = none
    ∧ (connectTcpSocket linuxPlatform refusingNet 47989 3).calls
        = [SockCall.socket, SockCall.setSocketNonBlocking 5 1, SockCall.connect 5 47989,
            SockCall.pollSockets 5 3000, SockCall.getsockoptSoError 5,
            SockCall.setSocketNonBlocking 5 0, SockCall.closeSocket 5,
            SockCall.SetLastSocketError 111]
    ∧ (connectTcpSocket linuxPlatform silentNet 47989 3).sock = none
    ∧ SockCall.setSocketNonBlocking 5 0 ∉ (connectTcpSocket linuxPlatform silentNet 47989 3).calls
    ∧ (connectTcpSocket linuxPlatform unroutableNet 47989 3).sock = none
    ∧ SockCall.setSocketNonBlocking 5 0
        ∉ (connectTcpSocket linuxPlatform unroutableNet 47989 3).calls
    ∧ (connectTcpSocket linuxPlatform acceptingNet 47989 3).sock = some 5
    ∧ SockCall.setSocketNonBlocking 5 0
        ∈ (connectTcpSocket linuxPlatform acceptingNet 47989 3).calls := by
  decide

/-- An unreachable candidate is one whose probe returns `INVALID_SOCKET`. -/
theorem sock_of_unreachable (P : Platform) (env : ResolveEnv) (tcpTestPort : Int) (i : Nat)
    (h : reachable P env tcpTestPort i = false) :
    (connectTcpSocket P (env.net i) (testPort P tcpTestPort) TEST_PORT_TIMEOUT_SEC).sock = none := by
  unfold reachable at h
  cases hs : (connectTcpSocket P (env.net i) (testPort P tcpTestPort) TEST_PORT_TIMEOUT_SEC).sock with
  | none => rfl
  | some v =>
    rw [hs] at h
    exact absurd h (by simp)

/-- A reachable candidate is one whose probe returns a socket. -/
theorem sock_of_reachable (P : Platform) (env : ResolveEnv) (tcpTestPort : Int) (i : Nat)
    (h : reachable P env tcpTestPort i = true) :
    ∃ v, (connectTcpSocket P (env.net i) (testPort P tcpTestPort) TEST_PORT_TIMEOUT_SEC).sock
      = some v := by
  unfold reachable at h
  exact Option.isSome_iff_exists.mp h

/-- Without testing, the loop accepts the first candidate at once. -/
theorem resolveLoop_untested (P : Platform) (env : ResolveEnv) (tcpTestPort : Int) (i : Nat)
    (c : SockaddrStorage) (rest : List SockaddrStorage)
    (ht : shouldTest P tcpTestPort env.res = false) :
    resolveLoop P env tcpTestPort i (c :: rest) = ⟨0, some c, [], []⟩ := by
  simp [resolveLoop, ht]

/-- With testing, the loop probes the candidates in order up to the first reachable one and
accepts it. -/
theorem resolveLoop_first_reachable (P : Platform) (env : ResolveEnv) (tcpTestPort : Int)
    (ht : shouldTest P tcpTestPort env.res = true) :
    ∀ (cands : List SockaddrStorage) (i k : Nat) (c : SockaddrStorage),
      cands[k]? = some c →
      (∀ j, j < k → reachable P env tcpTestPort (i + j) = false) →
      reachable P env tcpTestPort (i + k) = true →
      (resolveLoop P env tcpTestPort i cands).ret = 0
      ∧ (resolveLoop P env tcpTestPort i cands).addr = some c
      ∧ (resolveLoop P env tcpTestPort i cands).probes
          = (cands.take (k + 1)).map (fun a => (a, testPort P tcpTestPort)) := by
  intro cands
  induction cands with
  | nil =>
    intro i k c hc
    simp at hc
  | cons a rest ih =>
    intro i k c hc hprev hk
    cases k with
    | zero =>
      simp only [List.getElem?_cons_zero, Option.some.injEq] at hc
      obtain ⟨sock, hsock⟩ := sock_of_reachable P env tcpTestPort i hk
      simp [resolveLoop, ht, hsock, hc]
    | succ k =>
      have h0 := sock_of_unreachable P env tcpTestPort i (hprev 0 (Nat.succ_pos k))
      simp only [List.getElem?_cons_succ] at hc
      have hrec := ih (i + 1) k c hc
        (fun j hj => by
          have := hprev (j + 1) (by omega)
          rwa [show i + (j + 1) = i + 1 + j from by omega] at this)
        (by rwa [show i + (k + 1) = i + 1 + k from by omega] at hk)
      simp only [resolveLoop, ht, if_true, h0]
      refine ⟨hrec.1, hrec.2.1, ?_⟩
      simp [hrec.2.2]

/-- With testing and no reachable candidate, the loop probes every candidate and the
function returns -1. -/
theorem resolveLoop_none_reachable (P : Platform) (env : ResolveEnv) (tcpTestPort : Int)
    (ht : shouldTest P tcpTestPort env.res = true) :
    ∀ (cands : List SockaddrStorage) (i : Nat),
      (∀ j, j < cands.length → reachable P env tcpTestPort (i + j) = false) →
      resolveLoop P env tcpTestPort i cands
        = ⟨-1, none, cands.map (fun a => (a, testPort P tcpTestPort)), []⟩ := by
  intro cands
  induction cands with
  | nil =>
    intro i _
    rfl
  | cons a rest ih =>
    intro i hall
    have h0 := sock_of_unreachable P env tcpTestPort i (hall 0 (by simp))
    have hrec := ih (i + 1) (fun j hj => by
      have := hall (j + 1) (by simpa using hj)
      rwa [show i + (j + 1) = i + 1 + j from by omega] at this)
    simp [resolveLoop, ht, h0, hrec]

/-- The test of line 460, spelled out. -/
theorem shouldTest_iff (P : Platform) (tcpTestPort : Int) (res : List SockaddrStorage) :
    shouldTest P tcpTestPort res = true
      ↔ tcpTestPort ≠ 0
        ∧ (1 < res.length ∨ Int.land tcpTestPort P.TCP_PORT_FLAG_ALWAYS_TEST ≠ 0) := by
  have hlen : res.tail.isEmpty = false ↔ 1 < res.length := by
    cases res with
    | nil => simp
    | cons a rest =>
      cases rest with
      | nil => simp
      | cons b rest2 => simp
  simp only [shouldTest, Bool.and_eq_true, Bool.or_eq_true, decide_eq_true_eq,
    Bool.not_eq_true', hlen]

/-- After a successful lookup with at least one candidate, `resolveHostName` is its loop. -/
theorem resolveHostName_eq_loop (P : Platform) (env : ResolveEnv) (tcpTestPort : Int)
    (herr : env.getaddrinfoErr = 0) (hres : env.res ≠ []) :
    resolveHostName P env tcpTestPort = resolveLoop P env tcpTestPort 0 env.res := by
  have hne : env.res.isEmpty = false := by
    cases h : env.res with
    | nil => exact absurd h hres
    | cons a rest => rfl
  simp [resolveHostName, herr, hne]

/-- C12 (amended): given a successful lookup yielding the candidates `c1 :: rest` in
resolver order, `resolveHostName` probes candidates with a TCP connect to the caller's test
port if the test-port argument is non-zero and either more than one candidate exists or the
always-test flag is set, and otherwise probes none. It returns 0 and stores the first
candidate in resolver order whose probe succeeds (`c1` when probing is skipped), having
probed exactly the candidates up to and including the accepted one. Hence with one candidate
and no test flag it succeeds with zero probes, and with a non-zero test port and more than
one candidate of which only the last is reachable it probes all of them in order and returns
the last. -/
theorem resolveHostName_probing (P : Platform) (env : ResolveEnv) (tcpTestPort : Int)
    (c1 : SockaddrStorage) (rest : List SockaddrStorage)
    (herr : env.getaddrinfoErr = 0) (hres : env.res = c1 :: rest) :
    (shouldTest P tcpTestPort env.res = true
      ↔ tcpTestPort ≠ 0
        ∧ (1 < env.res.length ∨ Int.land tcpTestPort P.TCP_PORT_FLAG_ALWAYS_TEST ≠ 0))
    ∧ (shouldTest P tcpTestPort env.res = false →
        resolveHostName P env tcpTestPort = ⟨0, some c1, [], []⟩)
    ∧ (shouldTest P tcpTestPort env.res = true →
        ∀ (k : Nat) (c : SockaddrStorage), env.res[k]? = some c →
          (∀ j, j < k → reachable P env tcpTestPort j = false) →
          reachable P env tcpTestPort k = true →
          (resolveHostName P env tcpTestPort).ret = 0
          ∧ (resolveHostName P env tcpTestPort).addr = some c
          ∧ (resolveHostName P env tcpTestPort).probes
              = (env.res.take (k + 1)).map (fun a => (a, testPort P tcpTestPort)))
    ∧ (rest = [] → Int.land tcpTestPort P.TCP_PORT_FLAG_ALWAYS_TEST = 0 →
        resolveHostName P env tcpTestPort = ⟨0, some c1, [], []⟩)
    ∧ (tcpTestPort ≠ 0 → rest ≠ [] →
        (∀ j, j < rest.length → reachable P env tcpTestPort j = false) →
        reachable P env tcpTestPort rest.length = true →
        (resolveHostName P env tcpTestPort).ret = 0
        ∧ (resolveHostName P env tcpTestPort).addr = env.res.getLast?
        ∧ (resolveHostName P env tcpTestPort).probes
            = env.res.map (fun a => (a, testPort P tcpTestPort))) := by
  have hne : env.res ≠ [] := by
    rw [hres]
    exact List.cons_ne_nil _ _
  have hloop := resolveHostName_eq_loop P env tcpTestPort herr hne
  have huntested : shouldTest P tcpTestPort env.res = false →
      resolveHostName P env tcpTestPort = ⟨0, some c1, [], []⟩ := by
    intro ht
    rw [hloop]
    have h := resolveLoop_untested P env tcpTestPort 0 c1 rest ht
    rwa [← hres] at h
  have hfirst : shouldTest P tcpTestPort env.res = true →
      ∀ (k : Nat) (c : SockaddrStorage), env.res[k]? = some c →
        (∀ j, j < k → reachable P env tcpTestPort j = false) →
        reachable P env tcpTestPort k = true →
        (resolveHostName P env tcpTestPort).ret = 0
        ∧ (resolveHostName P env tcpTestPort).addr = some c
        ∧ (resolveHostName P env tcpTestPort).probes
            = (env.res.take (k + 1)).map (fun a => (a, testPort P tcpTestPort)) := by
    intro ht k c hc hprev hk
    rw [hloop]
    exact resolveLoop_first_reachable P env tcpTestPort ht env.res 0 k c hc
      (fun j hj => by simpa using hprev j hj) (by simpa using hk)
  refine ⟨shouldTest_iff P tcpTestPort env.res, huntested, hfirst, ?_, ?_⟩
  · intro hrest hflag
    apply huntested
    cases ht : shouldTest P tcpTestPort env.res with
    | false => rfl
    | true =>
      have h := (shouldTest_iff P tcpTestPort env.res).mp ht
      rw [hres, hrest] at h
      rcases h.2 with h1 | h1
      · simp at h1
      · exact absurd hflag h1
  · intro hport hrest hprev hlast
    have ht : shouldTest P tcpTestPort env.res = true := by
      rw [shouldTest_iff]
      refine ⟨hport, Or.inl ?_⟩
      rw [hres]
      cases rest with
      | nil => exact absurd rfl hrest
      | cons b rest2 => simp
    have hlen : env.res.length = rest.length + 1 := by
      rw [hres]
      rfl
    have hget : env.res[rest.length]? = env.res.getLast? := by
      rw [List.getLast?_eq_getElem?, hlen]
      rfl
    have hsome : ∃ c, env.res[rest.length]? = some c := by
      have hlt : rest.length < env.res.length := by omega
      exact ⟨env.res[rest.length], List.getElem?_eq_getElem hlt⟩
    obtain ⟨c, hc⟩ := hsome
    have h := hfirst ht rest.length c hc hprev hlast
    refine ⟨h.1, ?_, ?_⟩
    · rw [h.2.1, ← hget, hc]
    · rw [h.2.2, ← hlen, List.take_length]

/-- Witness for C12 (amended): two candidates of which only the second accepts, probed on
port 47989. -/
theorem resolveHostName_probing_witness :
    secondOnlyEnv.getaddrinfoErr = 0
    ∧ secondOnlyEnv.res = [ipv4 192 0 2 1, ipv4 192 0 2 2]
    ∧ (resolveHostName linuxPlatform secondOnlyEnv 47989).ret = 0
    ∧ (resolveHostName linuxPlatform secondOnlyEnv 47989).addr = some (ipv4 192 0 2 2)
    ∧ (resolveHostName linuxPlatform secondOnlyEnv 47989).probes
        = [(ipv4 192 0 2 1, 47989), (ipv4 192 0 2 2, 47989)] :=
  have h := (resolveHostName_probing linuxPlatform secondOnlyEnv 47989 (ipv4 192 0 2 1)
    [ipv4 192 0 2 2] rfl rfl).2.2.1 (by decide) 1 (ipv4 192 0 2 2) (by decide)
    (fun j hj => by
      have hj0 : j = 0 := by omega
      subst hj0
      decide)
    (by decide)
  ⟨rfl, rfl, h.1, h.2.1, h.2.2.trans (by decide)⟩

/-- C12, counterexample: with the test-port argument 0 and two candidates of which only the
second accepts, more than one candidate exists, yet `resolveHostName` probes none and stores
the first, unreachable candidate. -/
theorem resolveHostName_zero_port_skips_probing :
    secondOnlyEnv.getaddrinfoErr = 0
    ∧ 1 < secondOnlyEnv.res.length
    ∧ reachable linuxPlatform secondOnlyEnv 0 0 = false
    ∧ reachable linuxPlatform secondOnlyEnv 0 1 = true
    ∧ (resolveHostName linuxPlatform secondOnlyEnv 0).ret = 0
    ∧ (resolveHostName linuxPlatform secondOnlyEnv 0).probes = []
    ∧ (resolveHostName linuxPlatform secondOnlyEnv 0).addr = some (ipv4 192 0 2 1) := by
  decide

/-- C13 (amended): when the lookup succeeds but every candidate's probe fails,
`resolveHostName` returns -1 after probing every candidate; when the lookup itself fails with
the resolver code `e`, it returns `e`. The two return values differ exactly when `e` is not
-1, so the return value tells the two failures apart for every resolver code but -1. -/
theorem resolveHostName_exhausted_code (P : Platform) (env dns : ResolveEnv)
    (tcpTestPort dnsTestPort : Int)
    (herr : env.getaddrinfoErr = 0) (hres : env.res ≠ [])
    (ht : shouldTest P tcpTestPort env.res = true)
    (hnone : ∀ j, j < env.res.length → reachable P env tcpTestPort j = false)
    (hdns : dns.getaddrinfoErr ≠ 0) :
    (resolveHostName P env tcpTestPort).ret = -1
    ∧ (resolveHostName P env tcpTestPort).probes
        = env.res.map (fun a => (a, testPort P tcpTestPort))
    ∧ (resolveHostName P dns dnsTestPort).ret = dns.getaddrinfoErr
    ∧ ((resolveHostName P env tcpTestPort).ret ≠ (resolveHostName P dns dnsTestPort).ret
        ↔ dns.getaddrinfoErr ≠ -1) := by
  have hloop := resolveHostName_eq_loop P env tcpTestPort herr hres
  have hrun := resolveLoop_none_reachable P env tcpTestPort ht env.res 0
    (fun j hj => by simpa using hnone j hj)
  have hA : (resolveHostName P env tcpTestPort).ret = -1 := by
    rw [hloop, hrun]
  have hB : (resolveHostName P dns dnsTestPort).ret = dns.getaddrinfoErr := by
    simp [resolveHostName, hdns]
  refine ⟨hA, ?_, hB, ?_⟩
  · rw [hloop, hrun]
  · rw [hA, hB]
    exact ⟨fun h e => h e.symm, fun h e => h e.symm⟩

/-- Witness for C13 (amended): two refusing candidates against a lookup that fails with the
resolver code -2. -/
theorem resolveHostName_exhausted_code_witness :
    (resolveHostName linuxPlatform noneReachableEnv 47989).ret = -1
    ∧ (resolveHostName linuxPlatform { lookupFailsEnv with getaddrinfoErr := -2 } 47989).ret = -2 :=
  have h := resolveHostName_exhausted_code linuxPlatform noneReachableEnv
    { lookupFailsEnv with getaddrinfoErr := -2 } 47989 47989 rfl (by decide) (by decide)
    (fun j hj => by
      have hj2 : j = 0 ∨ j = 1 := by
        have : j < 2 := hj
        omega
      rcases hj2 with h0 | h1
      · subst h0
        decide
      · subst h1
        decide)
    (by decide)
  ⟨h.1, h.2.2.1⟩

/-- C13, counterexample: a lookup that fails with the resolver code -1 and a lookup whose
two candidates both refuse the probe make `resolveHostName` return the same value, -1. -/
theorem resolveHostName_codes_collide :
    lookupFailsEnv.getaddrinfoErr ≠ 0
    ∧ noneReachableEnv.getaddrinfoErr = 0
    ∧ reachable linuxPlatform noneReachableEnv 47989 0 = false
    ∧ reachable linuxPlatform noneReachableEnv 47989 1 = false
    ∧ (resolveHostName linuxPlatform noneReachableEnv 47989).probes
        = [(ipv4 192 0 2 1, 47989), (ipv4 192 0 2 2, 47989)]
    ∧ (resolveHostName linuxPlatform noneReachableEnv 47989).ret = -1
    ∧ (resolveHostName linuxPlatform lookupFailsEnv 47989).ret = -1
    ∧ (resolveHostName linuxPlatform lookupFailsEnv 47989).ret
        = (resolveHostName linuxPlatform noneReachableEnv 47989).ret := by
  decide

/-- What the receive-buffer loop does for every pattern of answers: it adds the current
size and then strictly smaller ones, every attempt before the last was rejected, and a
rejected last attempt is at or below the floor. -/
theorem rcvBufLoop_general (f : Nat → Int) :
    ∀ (n : Nat) (b : Int) (attempts : List Int), (b - RCV_BUFFER_SIZE_MIN).toNat ≤ n →
      ∃ new : List Int, (rcvBufLoop f b attempts).2 = attempts ++ b :: new
        ∧ List.Chain (fun x y => x > y) b new
        ∧ (∀ i, i < new.length → f (attempts.length + i) ≠ 0)
        ∧ (f (attempts.length + new.length) ≠ 0 → new.getLastD b ≤ RCV_BUFFER_SIZE_MIN)
        ∧ (rcvBufLoop f b attempts).1 = f (attempts.length + new.length) := by
  intro n
  induction n with
  | zero =>
    intro b attempts hn
    have hb : b ≤ RCV_BUFFER_SIZE_MIN := by omega
    refine ⟨[], ?_, List.Chain.nil, ?_, ?_, ?_⟩
    · rw [rcvBufLoop]
      by_cases h0 : f attempts.length = 0 <;> simp [h0, hb]
    · intro i hi
      simp at hi
    · intro _
      exact hb
    · rw [rcvBufLoop]
      by_cases h0 : f attempts.length = 0 <;> simp [h0, hb]
  | succ n ih =>
    intro b attempts hn
    by_cases h0 : f attempts.length = 0
    · refine ⟨[], ?_, List.Chain.nil, ?_, ?_, ?_⟩
      · rw [rcvBufLoop]
        simp [h0]
      · intro i hi
        simp at hi
      · intro hne
        exact absurd h0 (by simpa using hne)
      · rw [rcvBufLoop]
        simp [h0]
    · by_cases hb : b ≤ RCV_BUFFER_SIZE_MIN
      · refine ⟨[], ?_, List.Chain.nil, ?_, ?_, ?_⟩
        · rw [rcvBufLoop]
          simp [h0, hb]
        · intro i hi
          simp at hi
        · intro _
          exact hb
        · rw [rcvBufLoop]
          simp [h0, hb]
      · have hstep : ∀ b2 : Int, b2 < b → RCV_BUFFER_SIZE_MIN ≤ b2 →
            rcvBufLoop f b attempts = rcvBufLoop f b2 (attempts ++ [b]) →
            ∃ new : List Int, (rcvBufLoop f b attempts).2 = attempts ++ b :: new
              ∧ List.Chain (fun x y => x > y) b new
              ∧ (∀ i, i < new.length → f (attempts.length + i) ≠ 0)
              ∧ (f (attempts.length + new.length) ≠ 0 → new.getLastD b ≤ RCV_BUFFER_SIZE_MIN)
              ∧ (rcvBufLoop f b attempts).1 = f (attempts.length + new.length) := by
          intro b2 hlt hge heq
          obtain ⟨new2, hrun, hchain, hrej, hlast, herr⟩ := ih b2 (attempts ++ [b]) (by omega)
          simp only [List.length_append, List.length_singleton] at hrej hlast herr
          refine ⟨b2 :: new2, ?_, List.Chain.cons hlt hchain, ?_, ?_, ?_⟩
          · rw [heq, hrun]
            simp
          · intro i hi
            cases i with
            | zero => simpa using h0
            | succ j =>
              have hj : j < new2.length := by simpa using hi
              have := hrej j hj
              rwa [show attempts.length + 1 + j = attempts.length + (j + 1) from by omega] at this
          · intro hne
            have hidx : attempts.length + (b2 :: new2).length
                = attempts.length + 1 + new2.length := by
              simp only [List.length_cons]
              omega
            rw [hidx] at hne
            rw [List.getLastD_cons]
            exact hlast hne
          · rw [heq, herr]
            congr 1
            simp only [List.length_cons]
            omega
        by_cases hfloor : b - RCV_BUFFER_SIZE_STEP ≤ RCV_BUFFER_SIZE_MIN
        · apply hstep RCV_BUFFER_SIZE_MIN (by omega) (le_refl _)
          rw [rcvBufLoop]
          simp [h0, hb, hfloor]
        · apply hstep (b - RCV_BUFFER_SIZE_STEP) (by simp only [RCV_BUFFER_SIZE_STEP]; omega)
            (by omega)
          rw [rcvBufLoop]
          simp [h0, hb, hfloor]

theorem stepDownCount_cast (r : Int) (hr : RCV_BUFFER_SIZE_MIN < r) :
    ((stepDownCount r : Nat) : Int) = (r - 32767 + 16383) / 16384 := by
  simp only [RCV_BUFFER_SIZE_MIN] at hr
  simp only [stepDownCount, RCV_BUFFER_SIZE_MIN, RCV_BUFFER_SIZE_STEP]
  omega

/-- The loop from the `m`-th step-down on, when every request is rejected. -/
theorem rcvBufLoop_all_rejected (f : Nat → Int) (hrej : ∀ j, f j ≠ 0) (r : Int)
    (hr : RCV_BUFFER_SIZE_MIN < r) :
    ∀ (d m : Nat) (attempts : List Int), m + d + 1 = stepDownCount r →
      (rcvBufLoop f (r - RCV_BUFFER_SIZE_STEP * (m : Int)) attempts).2
        = attempts
          ++ (List.range' m (d + 1)).map (fun i : Nat => r - RCV_BUFFER_SIZE_STEP * (i : Int))
          ++ [RCV_BUFFER_SIZE_MIN] := by
  have hK := stepDownCount_cast r hr
  simp only [RCV_BUFFER_SIZE_MIN] at hr
  intro d
  induction d with
  | zero =>
    intro m attempts hm
    have hmK : (m : Int) + 1 = (stepDownCount r : Nat) := by omega
    have hb : ¬ r - RCV_BUFFER_SIZE_STEP * (m : Int) ≤ RCV_BUFFER_SIZE_MIN := by
      simp only [RCV_BUFFER_SIZE_MIN, RCV_BUFFER_SIZE_STEP]
      omega
    have hfloor : r - RCV_BUFFER_SIZE_STEP * (m : Int) - RCV_BUFFER_SIZE_STEP
        ≤ RCV_BUFFER_SIZE_MIN := by
      simp only [RCV_BUFFER_SIZE_MIN, RCV_BUFFER_SIZE_STEP]
      omega
    rw [rcvBufLoop]
    simp only [hrej _, if_false, hb, dite_false, hfloor, dite_true]
    rw [rcvBufLoop]
    simp [hrej _]
  | succ d ih =>
    intro m attempts hm
    have hmK : (m : Int) + 2 ≤ (stepDownCount r : Nat) := by omega
    have hb : ¬ r - RCV_BUFFER_SIZE_STEP * (m : Int) ≤ RCV_BUFFER_SIZE_MIN := by
      simp only [RCV_BUFFER_SIZE_MIN, RCV_BUFFER_SIZE_STEP]
      omega
    have hfloor : ¬ r - RCV_BUFFER_SIZE_STEP * (m : Int) - RCV_BUFFER_SIZE_STEP
        ≤ RCV_BUFFER_SIZE_MIN := by
      simp only [RCV_BUFFER_SIZE_MIN, RCV_BUFFER_SIZE_STEP]
      omega
    have hnext : r - RCV_BUFFER_SIZE_STEP * (m : Int) - RCV_BUFFER_SIZE_STEP
        = r - RCV_BUFFER_SIZE_STEP * ((m + 1 : Nat) : Int) := by
      push_cast
      ring
    rw [rcvBufLoop]
    simp only [hrej _, if_false, hb, dite_false, hfloor]
    rw [hnext, ih (m + 1) _ (by omega)]
    simp [List.range'_succ]

/-- C15: in the receive-buffer loop of `bindUdpSocket`, for every requested size `r` and
every pattern of answers of the operating system, the loop terminates (the function is
total), the first size tried is `r`, the sizes tried are strictly decreasing, every attempt
before the last was rejected (the loop stops at the first accepted size), and a rejected
last attempt is at or below the floor. If every attempt is rejected the sizes tried are
`rejectedAttempts r`: for `r > 32767` the sizes `r, r - 16384, ...` above the floor followed
by one attempt at the floor 32767, `ceil((r - 32767) / 16384) + 1` attempts in all and none
below the floor (the sizes before the last are exactly the values `r - 16384 * i` that are
still above the floor); for `r <= 32767` the single attempt `r`. In every case, once the socket is
created and bound, `bindUdpSocket` returns it, having made exactly these `setsockopt`
calls. -/
theorem bindUdpSocket_buffer_loop (f : Nat → Int) (r : Int) :
    (rcvBufLoop f r []).2.head? = some r
    ∧ (rcvBufLoop f r []).2.Pairwise (fun x y => x > y)
    ∧ (∀ i, i + 1 < (rcvBufLoop f r []).2.length → f i ≠ 0)
    ∧ (rcvBufLoop f r []).1 = f ((rcvBufLoop f r []).2.length - 1)
    ∧ ((rcvBufLoop f r []).1 ≠ 0 →
        ∀ x, (rcvBufLoop f r []).2.getLast? = some x → x ≤ RCV_BUFFER_SIZE_MIN)
    ∧ ((∀ j, f j ≠ 0) → (rcvBufLoop f r []).2 = rejectedAttempts r)
    ∧ (RCV_BUFFER_SIZE_MIN < r →
        ((rejectedAttempts r).length : Int) = (r - 32767 + 16383) / 16384 + 1
        ∧ (∀ x ∈ rejectedAttempts r, RCV_BUFFER_SIZE_MIN ≤ x)
        ∧ (rejectedAttempts r).getLast? = some RCV_BUFFER_SIZE_MIN
        ∧ (∀ i : Nat, i < stepDownCount r
            ↔ RCV_BUFFER_SIZE_MIN < r - RCV_BUFFER_SIZE_STEP * (i : Int)))
    ∧ (r ≤ RCV_BUFFER_SIZE_MIN → rejectedAttempts r = [r])
    ∧ (∀ (env : BindEnv) (s : Int), env.socket = some s → env.bindFails = false →
        env.setsockoptRet = f →
        (bindUdpSocket env r).sock = some s
        ∧ (bindUdpSocket env r).calls
            = [SockCall.socket, SockCall.bind s]
              ++ (rcvBufLoop f r []).2.map (SockCall.setsockoptRcvBuf s)) := by
  obtain ⟨new, hrun, hchain, hrejd, hlast, herr⟩ :=
    rcvBufLoop_general f _ r [] (le_refl _)
  simp only [List.nil_append, List.length_nil, Nat.zero_add] at hrun hrejd hlast herr
  refine ⟨?_, ?_, ?_, ?_, ?_, ?_, ?_, ?_, ?_⟩
  · rw [hrun]
    rfl
  · rw [hrun]
    exact List.chain_iff_pairwise.mp hchain
  · intro i hi
    rw [hrun] at hi
    exact hrejd i (by simpa using hi)
  · rw [herr, hrun]
    simp
  · intro hne x hx
    rw [herr] at hne
    have h := hlast hne
    rw [hrun, List.getLast?_cons] at hx
    rw [List.getLastD_eq_getLast?] at h
    cases hx
    exact h
  · intro hall
    by_cases hr : RCV_BUFFER_SIZE_MIN < r
    · have hK := stepDownCount_cast r hr
      have hpos : 0 < stepDownCount r := by
        simp only [RCV_BUFFER_SIZE_MIN] at hr
        omega
      have h := rcvBufLoop_all_rejected f hall r hr (stepDownCount r - 1) 0 [] (by omega)
      simp only [Nat.cast_zero, mul_zero, sub_zero, List.nil_append] at h
      rw [h, rejectedAttempts, if_pos hr, List.range_eq_range',
        show stepDownCount r - 1 + 1 = stepDownCount r from by omega]
    · have hle : r ≤ RCV_BUFFER_SIZE_MIN := not_lt.mp hr
      rw [rejectedAttempts, if_neg hr, rcvBufLoop]
      simp [hall _, hle]
  · intro hr
    have hK := stepDownCount_cast r hr
    have hdef : rejectedAttempts r
        = (List.range (stepDownCount r)).map (fun i : Nat => r - RCV_BUFFER_SIZE_STEP * (i : Int))
          ++ [RCV_BUFFER_SIZE_MIN] := by
      rw [rejectedAttempts, if_pos hr]
    have hlen : (rejectedAttempts r).length = stepDownCount r + 1 := by
      rw [hdef]
      simp
    refine ⟨?_, ?_, ?_, ?_⟩
    · rw [hlen]
      push_cast
      omega
    · intro x hx
      rw [hdef, List.mem_append, List.mem_map, List.mem_singleton] at hx
      rcases hx with ⟨i, hi, hx⟩ | hx
      · rw [List.mem_range] at hi
        have hi2 : (i : Int) + 1 ≤ (stepDownCount r : Nat) := by omega
        rw [← hx]
        simp only [RCV_BUFFER_SIZE_MIN, RCV_BUFFER_SIZE_STEP] at hr ⊢
        omega
      · rw [hx]
    · rw [hdef]
      simp
    · intro i
      simp only [RCV_BUFFER_SIZE_MIN, RCV_BUFFER_SIZE_STEP] at hr ⊢
      constructor
      · intro hi
        have hi2 : (i : Int) + 1 ≤ (stepDownCount r : Nat) := by omega
        omega
      · intro hi
        have hi2 : (i : Int) < (stepDownCount r : Nat) := by omega
        omega
  · intro hr
    have hn : ¬ r > RCV_BUFFER_SIZE_MIN := not_lt.mpr hr
    simp [rejectedAttempts, hn]
  · intro env s hsock hbind hf
    simp [bindUdpSocket, createSocket, hsock, hbind, hf]

/-- Witness for C15: a request of 100000 bytes against a system that rejects every size is
tried at six sizes, the last one the floor. -/
theorem bindUdpSocket_buffer_loop_witness :
    (rcvBufLoop (fun _ => -1) 100000 []).2 = [100000, 83616, 67232, 50848, 34464, 32767] :=
  ((bindUdpSocket_buffer_loop (fun _ => -1) 100000).2.2.2.2.2.1
    (fun _ => by decide)).trans (by decide)

end PlatformSockets

/-! ## The stage counter of `Connection.c` -/

namespace Connection

theorem completedStages_view (tr : List Event) :
    completedStages tr = completedStages (withoutTerminations tr) := by
  induction tr with
  | nil => rfl
  | cons e rest ih =>
    cases e <;> simp [completedStages, withoutTerminations, Event.isTermination] at ih ⊢ <;>
      exact ih

/-- One stop block leaves the counter alone or, when the counter is at its stage, lowers it
by exactly one. -/
theorem stopStep_stage (env : Env) (s : Int) (teardown : Option Action) (st : Session) :
    (stopStep env s teardown st).stage = if st.stage = s then st.stage - 1 else st.stage := by
  unfold stopStep
  by_cases h : st.stage = s
  · cases teardown <;> simp [h]
  · simp [h]

theorem LC_ASSERT_stage (x : Bool) (st : Session) : (LC_ASSERT x st).stage = st.stage := by
  unfold LC_ASSERT
  split <;> rfl

/-- In a start from `STAGE_NONE` no `LC_ASSERT` fails. -/
theorem start_no_assert (env : Env) (latch : Int) :
    Event.assertFailed
      ∉ withoutTerminations (LiStartConnection env ⟨STAGE_NONE, latch, []⟩).2.trace := by
  simp only [LiStartConnection, stageAbort, resolveHostName_result]
  split_ifs <;> simp [Event.isTermination]

/-- In a start from `STAGE_NONE` the completed stages are `1, ..., stage`. -/
theorem start_completed (env : Env) (latch : Int) :
    completedStages (withoutTerminations (LiStartConnection env ⟨STAGE_NONE, latch, []⟩).2.trace)
      = stagesUpTo (LiStartConnection env ⟨STAGE_NONE, latch, []⟩).2.stage := by
  simp only [LiStartConnection, stageAbort, resolveHostName_result]
  split_ifs <;> simp [Event.isTermination, completedStages] <;> decide

/-- In a start from `STAGE_NONE` a stage is completed only if its action succeeded. -/
theorem start_completed_succeeded (env : Env) (latch : Int) (k : Int)
    (hk : k ∈ completedStages
      (withoutTerminations (LiStartConnection env ⟨STAGE_NONE, latch, []⟩).2.trace)) :
    stageActionResult env k = 0 := by
  revert hk
  simp only [LiStartConnection, stageAbort, resolveHostName_result]
  split_ifs <;> simp [Event.isTermination, completedStages] <;>
    (try (intro hk; rcases hk with h | h | h | h | h | h | h | h | h | h | h)) <;>
    simp_all [stageActionResult]

theorem stopStep_le (env : Env) (s : Int) (teardown : Option Action) (st : Session) :
    (stopStep env s teardown st).stage ≤ st.stage := by
  rw [stopStep_stage]
  split <;> omega

/-- The function `LiStopConnection` never raises the counter, whatever the session. -/
theorem LiStopConnection_le (env : Env) (st : Session) :
    (LiStopConnection env st).stage ≤ st.stage := by
  simp only [LiStopConnection, LC_ASSERT_stage]
  exact le_trans (stopStep_le _ _ _ _) <| le_trans (stopStep_le _ _ _ _) <|
    le_trans (stopStep_le _ _ _ _) <| le_trans (stopStep_le _ _ _ _) <|
    le_trans (stopStep_le _ _ _ _) <| le_trans (stopStep_le _ _ _ _) <|
    le_trans (stopStep_le _ _ _ _) <| le_trans (stopStep_le _ _ _ _) <|
    le_trans (stopStep_le _ _ _ _) <| le_trans (stopStep_le _ _ _ _) <|
    le_trans (stopStep_le _ _ _ _) <| le_refl _

/-- The function `LiStartConnection` never lowers the counter, whatever the session. -/
theorem LiStartConnection_ge (env : Env) (st : Session) :
    st.stage ≤ (LiStartConnection env st).2.stage := by
  simp only [LiStartConnection, stageAbort]
  split_ifs <;> simp <;> omega

/-- The function `LiStopConnection` is its eleven teardown blocks run in order after the
latch is set, followed by the final assertion. -/
theorem LiStopConnection_eq_blocks (env : Env) (st : Session) :
    LiStopConnection env st
      = LC_ASSERT (((stopSessions env st).getLastD st).stage == STAGE_NONE)
          ((stopSessions env st).getLastD st) := rfl

/-- Along any run of teardown blocks each block leaves the counter or lowers it by one. -/
theorem runStopBlocks_chain (env : Env) :
    ∀ (blocks : List (Int × Option Action)) (st : Session),
      List.Chain (fun a b : Int => b = a ∨ b = a - 1) st.stage
        ((runStopBlocks env blocks st).map Session.stage) := by
  intro blocks
  induction blocks with
  | nil =>
    intro st
    exact List.Chain.nil
  | cons b rest ih =>
    intro st
    simp only [runStopBlocks, List.map_cons]
    refine List.Chain.cons ?_ (ih _)
    rw [stopStep_stage]
    split
    · exact Or.inr rfl
    · exact Or.inl rfl

/-- From a stage `s` in `0..11` the counter stays at `s` through the blocks of the stages
above `s` and then goes down through `s - 1, ..., 0`, one value per block. -/
theorem stopStages_from_stage (env : Env) (s latch : Int) (tr : List Event)
    (h0 : STAGE_NONE ≤ s) (h1 : s ≤ STAGE_INPUT_STREAM_START) :
    stopStages env ⟨s, latch, tr⟩
      = List.replicate (12 - s).toNat s ++ (stagesDownFrom s).map (fun k => k - 1) := by
  simp only [STAGE_NONE, STAGE_INPUT_STREAM_START] at h0 h1
  interval_cases s <;>
    simp [stopStages, stopSessions, stopBlocks, runStopBlocks, stopStep_stage, stagesDownFrom,
      List.range_succ, List.replicate]

theorem runStartBlocks_nil (env : Env) (err : Int) (st : Session) :
    (runStartBlocks env [] err st).1 = (err, emit Event.connectionStarted st) := rfl

theorem runStartBlocks_callVoid (env : Env) (s : Int) (a : Action)
    (rest : List (Int × StageBody)) (err : Int) (st : Session) :
    (runStartBlocks env ((s, StageBody.callVoid a) :: rest) err st).1
      = (runStartBlocks env rest err
          (stageDone s (callExternal env a (emit (Event.stageStarting s) st)))).1 := rfl

theorem runStartBlocks_call (env : Env) (s : Int) (a : Action)
    (rest : List (Int × StageBody)) (err : Int) (st : Session) :
    (runStartBlocks env ((s, StageBody.call a) :: rest) err st).1
      = if env.result a ≠ 0 then
          stageAbort s (env.result a) (callExternal env a (emit (Event.stageStarting s) st))
        else
          (runStartBlocks env rest (env.result a)
            (stageDone s (callExternal env a (emit (Event.stageStarting s) st)))).1 := by
  simp only [runStartBlocks]
  split <;> rfl

theorem runStartBlocks_resolve (env : Env) (s : Int)
    (rest : List (Int × StageBody)) (err : Int) (st : Session) :
    (runStartBlocks env ((s, StageBody.resolve) :: rest) err st).1
      = if (resolveHostName env (emit (Event.stageStarting s) st)).1 ≠ 0 then
          stageAbort s (resolveHostName env (emit (Event.stageStarting s) st)).1
            (resolveHostName env (emit (Event.stageStarting s) st)).2
        else
          (runStartBlocks env rest (resolveHostName env (emit (Event.stageStarting s) st)).1
            (stageDone s (resolveHostName env (emit (Event.stageStarting s) st)).2)).1 := by
  simp only [runStartBlocks]
  split <;> rfl

/-- The function `LiStartConnection` is its eleven stage blocks run in order after the latch
is reset, whatever the local `err` holds on entry. -/
theorem LiStartConnection_eq_blocks (env : Env) (st : Session) (err : Int) :
    LiStartConnection env st
      = (runStartBlocks env startBlocks err { st with alreadyTerminated := 0 }).1 := by
  simp only [LiStartConnection, startBlocks, runStartBlocks_call, runStartBlocks_callVoid,
    runStartBlocks_resolve, runStartBlocks_nil]

/-- Along any run of stage blocks each completed block raises the counter by one. -/
theorem runStartBlocks_chain (env : Env) :
    ∀ (blocks : List (Int × StageBody)) (err : Int) (st : Session),
      List.Chain (fun a b : Int => b = a + 1) st.stage
        ((runStartBlocks env blocks err st).2.map Session.stage) := by
  intro blocks
  induction blocks with
  | nil =>
    intro err st
    exact List.Chain.nil
  | cons b rest ih =>
    intro err st
    obtain ⟨s, body⟩ := b
    cases body with
    | call a =>
      simp only [runStartBlocks]
      split
      · exact List.Chain.nil
      · simp only [List.map_cons]
        exact List.Chain.cons (by simp) (ih _ _)
    | callVoid a =>
      simp only [runStartBlocks, List.map_cons]
      exact List.Chain.cons (by simp) (ih _ _)
    | resolve =>
      simp only [runStartBlocks]
      split
      · exact List.Chain.nil
      · simp only [List.map_cons]
        exact List.Chain.cons (by simp) (ih _ _)

/-- The last session of a run of stage blocks is the session that is returned. -/
theorem runStartBlocks_last (env : Env) :
    ∀ (blocks : List (Int × StageBody)) (err : Int) (st : Session),
      (((runStartBlocks env blocks err st).2.map Session.stage).getLastD st.stage)
        = (runStartBlocks env blocks err st).1.2.stage := by
  intro blocks
  induction blocks with
  | nil =>
    intro err st
    rfl
  | cons b rest ih =>
    intro err st
    obtain ⟨s, body⟩ := b
    cases body with
    | call a =>
      simp only [runStartBlocks]
      split
      · simp [stageAbort]
      · simp only [List.map_cons, List.getLastD_cons]
        exact ih _ _
    | callVoid a =>
      simp only [runStartBlocks, List.map_cons, List.getLastD_cons]
      exact ih _ _
    | resolve =>
      simp only [runStartBlocks]
      split
      · simp [stageAbort]
      · simp only [List.map_cons, List.getLastD_cons]
        exact ih _ _

/-- A list that starts right above `a` and rises by one at each step is `a + 1, a + 2, ...`,
and ends at `a` plus its length. -/
theorem chain_succ_list :
    ∀ (l : List Int) (a : Int), List.Chain (fun x y : Int => y = x + 1) a l →
      l = (List.range l.length).map (fun i : Nat => a + 1 + (i : Int))
      ∧ l.getLastD a = a + (l.length : Int) := by
  intro l
  induction l with
  | nil =>
    intro a _
    simp
  | cons b t ih =>
    intro a h
    rw [List.chain_cons] at h
    obtain ⟨hb, ht⟩ := h
    obtain ⟨hlist, hlast⟩ := ih b ht
    refine ⟨?_, ?_⟩
    · rw [List.length_cons, List.range_succ_eq_map, List.map_cons, List.map_map]
      congr 1
      · simp [hb]
      · conv_lhs => rw [hlist]
        apply List.map_congr_left
        intro i _
        simp only [Function.comp_apply, hb]
        push_cast
        ring
    · rw [List.getLastD_cons, hlast, hb, List.length_cons]
      push_cast
      ring

/-- The stage values of a start end at the stage of the session that is returned. -/
theorem startStages_last (env : Env) (st : Session) :
    (startStages env st).getLast? = some (LiStartConnection env st).2.stage := by
  have h := runStartBlocks_last env startBlocks 0 { st with alreadyTerminated := 0 }
  rw [← LiStartConnection_eq_blocks env st 0] at h
  rw [startStages, List.getLast?_cons, ← List.getLastD_eq_getLast?]
  exact congrArg some h

/-- The stage values of a stop end at the stage of the session that is returned. -/
theorem stopStages_last (env : Env) (st : Session) :
    (stopStages env st).getLast? = some (LiStopConnection env st).stage := by
  rw [LiStopConnection_eq_blocks, LC_ASSERT_stage]
  rfl

/-- The stage values of a start from `STAGE_NONE` are `0, 1, ..., n` with `n` the final
value. -/
theorem startStages_from_none (env : Env) (latch : Int) :
    startStages env ⟨STAGE_NONE, latch, []⟩
      = STAGE_NONE :: stagesUpTo (LiStartConnection env ⟨STAGE_NONE, latch, []⟩).2.stage := by
  have hchain := runStartBlocks_chain env startBlocks 0
    ({ (⟨STAGE_NONE, latch, []⟩ : Session) with alreadyTerminated := 0 })
  have hlast := runStartBlocks_last env startBlocks 0
    ({ (⟨STAGE_NONE, latch, []⟩ : Session) with alreadyTerminated := 0 })
  rw [← LiStartConnection_eq_blocks env ⟨STAGE_NONE, latch, []⟩ 0] at hlast
  obtain ⟨hlist, hend⟩ := chain_succ_list _ _ hchain
  rw [hlast] at hend
  simp only [STAGE_NONE, zero_add] at hend hlist
  rw [startStages, hlist, stagesUpTo, hend]
  simp only [STAGE_NONE, Int.toNat_ofNat, zero_add]
  congr 1
  apply List.map_congr_left
  intro i _
  ring

/-- C16: the stage counter only ever changes by exactly one step. Of the pieces the two
functions are made of, the success tail of a stage block of `LiStartConnection` (`stageDone`)
raises the counter by exactly one, a teardown block of `LiStopConnection` (`stopStep`) lowers
it by exactly one or leaves it, and nothing else writes it; `LiStartConnection` never lowers
the counter and `LiStopConnection` never raises it. In a run of `LiStartConnection` that
begins at `STAGE_NONE` no `LC_ASSERT` fails, the values the counter is raised to are
`1, 2, ..., n` without a gap, where `n` is its final value and lies between `STAGE_NONE` and
`STAGE_INPUT_STREAM_START`, and each of these increments follows a successful action of its
stage. The two functions are exactly their blocks run in program order: `LiStopConnection`
is its eleven teardown blocks after the latch is set, followed by the final assertion, and
along them, from any session, each value of the counter is the one before or exactly one
less, ending at the value returned; from a stage `s` in `0..11` the counter goes through
`s, s - 1, ..., 0`, one value per block. `LiStartConnection` is its eleven stage blocks after
the latch is reset, and along them, from any session, each value of the counter is exactly
one more than the one before, ending at the value returned; from `STAGE_NONE` the values are
`0, 1, ..., n`. -/
theorem stage_counter_moves_by_one (env : Env) (latch : Int) :
    (∀ (s : Int) (st : Session), (stageDone s st).stage = st.stage + 1)
    ∧ (∀ (s : Int) (teardown : Option Action) (st : Session),
        (stopStep env s teardown st).stage = if st.stage = s then st.stage - 1 else st.stage)
    ∧ (∀ (e : Event) (st : Session), (emit e st).stage = st.stage)
    ∧ (∀ (x : Bool) (st : Session), (LC_ASSERT x st).stage = st.stage)
    ∧ (∀ (c : Int) (st : Session), (ClInternalConnectionTerminated c st).stage = st.stage)
    ∧ (∀ (a : Action) (st : Session), (callExternal env a st).stage = st.stage)
    ∧ (∀ st : Session, (resolveHostName env st).2.stage = st.stage)
    ∧ (∀ (s err : Int) (st : Session), (stageAbort s err st).2.stage = st.stage)
    ∧ (∀ st : Session, st.stage ≤ (LiStartConnection env st).2.stage)
    ∧ (∀ st : Session, (LiStopConnection env st).stage ≤ st.stage)
    ∧ Event.assertFailed ∉ (LiStartConnection env ⟨STAGE_NONE, latch, []⟩).2.trace
    ∧ completedStages (LiStartConnection env ⟨STAGE_NONE, latch, []⟩).2.trace
        = stagesUpTo (LiStartConnection env ⟨STAGE_NONE, latch, []⟩).2.stage
    ∧ (∀ k ∈ completedStages (LiStartConnection env ⟨STAGE_NONE, latch, []⟩).2.trace,
        stageActionResult env k = 0)
    ∧ STAGE_NONE ≤ (LiStartConnection env ⟨STAGE_NONE, latch, []⟩).2.stage
    ∧ (LiStartConnection env ⟨STAGE_NONE, latch, []⟩).2.stage ≤ STAGE_INPUT_STREAM_START
    -- `LiStopConnection`, block by block
    ∧ (∀ st : Session, LiStopConnection env st
        = LC_ASSERT (((stopSessions env st).getLastD st).stage == STAGE_NONE)
            ((stopSessions env st).getLastD st))
    ∧ (∀ st : Session, (stopStages env st).head? = some st.stage)
    ∧ (∀ st : Session,
        List.Chain' (fun a b : Int => b = a ∨ b = a - 1) (stopStages env st))
    ∧ (∀ st : Session, (stopStages env st).getLast? = some (LiStopConnection env st).stage)
    ∧ (∀ (s l : Int) (tr : List Event), STAGE_NONE ≤ s → s ≤ STAGE_INPUT_STREAM_START →
        stopStages env ⟨s, l, tr⟩
          = List.replicate (12 - s).toNat s ++ (stagesDownFrom s).map (fun k => k - 1))
    -- `LiStartConnection`, block by block
    ∧ (∀ (st : Session) (err : Int), LiStartConnection env st
        = (runStartBlocks env startBlocks err { st with alreadyTerminated := 0 }).1)
    ∧ (∀ st : Session, (startStages env st).head? = some st.stage)
    ∧ (∀ st : Session, List.Chain' (fun a b : Int => b = a + 1) (startStages env st))
    ∧ (∀ st : Session,
        (startStages env st).getLast? = some (LiStartConnection env st).2.stage)
    ∧ startStages env ⟨STAGE_NONE, latch, []⟩
        = STAGE_NONE :: stagesUpTo (LiStartConnection env ⟨STAGE_NONE, latch, []⟩).2.stage := by
  refine ⟨stageDone_stage, stopStep_stage env, emit_stage, LC_ASSERT_stage,
    ClInternalConnectionTerminated_stage, callExternal_stage env, resolveHostName_stage env,
    fun _ _ _ => rfl, LiStartConnection_ge env, LiStopConnection_le env, ?_, ?_, ?_, ?_, ?_,
    LiStopConnection_eq_blocks env, fun _ => rfl, ?_, stopStages_last env,
    fun s l tr h0 h1 => stopStages_from_stage env s l tr h0 h1,
    LiStartConnection_eq_blocks env, fun _ => rfl, ?_, startStages_last env,
    startStages_from_none env latch⟩
  · intro hm
    exact start_no_assert env latch ((mem_withoutTerminations (by rfl) _).1 hm)
  · rw [completedStages_view]
    exact start_completed env latch
  · intro k hk
    rw [completedStages_view] at hk
    exact start_completed_succeeded env latch k hk
  · exact LiStartConnection_ge env ⟨STAGE_NONE, latch, []⟩
  · rcases start_stage_cases env latch with ⟨_, hstage, _⟩ | ⟨_, _, hhi, _, _⟩
    · rw [hstage]
    · exact le_of_lt hhi
  · intro st
    exact runStopBlocks_chain env stopBlocks { st with alreadyTerminated := 1 }
  · intro st
    exact runStartBlocks_chain env startBlocks 0 { st with alreadyTerminated := 0 }

/-- Witness for C16: a start whose name resolution fails raises the counter once, to
`STAGE_PLATFORM_INIT`, and no assertion fails. -/
theorem stage_counter_moves_by_one_witness :
    completedStages (LiStartConnection dnsFailureEnv ⟨STAGE_NONE, 0, []⟩).2.trace
      = [STAGE_PLATFORM_INIT]
    ∧ Event.assertFailed ∉ (LiStartConnection dnsFailureEnv ⟨STAGE_NONE, 0, []⟩).2.trace :=
  ⟨((stage_counter_moves_by_one dnsFailureEnv 0).2.2.2.2.2.2.2.2.2.2.2.1).trans (by decide),
    (stage_counter_moves_by_one dnsFailureEnv 0).2.2.2.2.2.2.2.2.2.2.1⟩

end Connection
